import Mathlib

/-
Verification of the worms simulation engine (Rust sources: geometry.rs,
composites.rs, movement.rs, scene.rs) through a shallow embedding.

Modelling conventions:
* `f32` values are modelled as exact rationals (`ℚ`); the transcendental
  operations (atan2, cos/sin, the angle-wrap test of `Direction::connect`)
  are abstracted as parameters of a `Geom` structure, since every claim
  under study is about the control flow and discrete bookkeeping that sits
  on top of them.
* Euclidean distances are compared through their squares (`x < y ↔ x² < y²`
  for nonnegative reals), keeping every definition executable on `ℚ`.
* `usize` values become `ℕ`, `i16` direction values become `ℤ` (the source
  keeps direction offsets signed and unreduced until rendered).
* Randomness (thread_rng draws) is resolved by explicit oracle parameters;
  quantifying over the oracles covers every run of the program.
-/

namespace Worms

/-- 2D point, from `geometry.rs` `Point` (f32 coordinates modelled as ℚ). -/
structure Point where
  x : ℚ
  y : ℚ
deriving DecidableEq, Repr

instance : Inhabited Point := ⟨⟨0, 0⟩⟩

/-- Embeds `Point::add`. -/
def Point.add (a b : Point) : Point := ⟨a.x + b.x, a.y + b.y⟩

/-- Embeds `Point::sub`. -/
def Point.sub (a b : Point) : Point := ⟨a.x - b.x, a.y - b.y⟩

/-- Embeds `Point::scale`. -/
def Point.scale (a : Point) (s : ℚ) : Point := ⟨a.x * s, a.y * s⟩

/-- Squared Euclidean distance.  `Point::distance_to` computes
`hypot (a-b).x (a-b).y`; we keep its square, which is rational. -/
def Point.distSq (a b : Point) : ℚ := (a.x - b.x) ^ 2 + (a.y - b.y) ^ 2

/-- Embeds `distance_to a b < r`, decided on squares: for the nonnegative real
`dist`, `dist < r ↔ 0 < r ∧ dist² < r²`. -/
def distLtB (a b : Point) (r : ℚ) : Bool := decide (0 < r ∧ Point.distSq a b < r ^ 2)

/-- Embeds `distance_to a b > r`: `dist > r ↔ r < 0 ∨ r² < dist²` (dist ≥ 0). -/
def distGtB (a b : Point) (r : ℚ) : Bool := decide (r < 0 ∨ r ^ 2 < Point.distSq a b)

/-- Embeds `distance_to a b >= r`: `dist ≥ r ↔ r ≤ 0 ∨ r² ≤ dist²` (dist ≥ 0). -/
def distGeB (a b : Point) (r : ℚ) : Bool := decide (r ≤ 0 ∨ r ^ 2 ≤ Point.distSq a b)

/-- Number of movement directions, `N_DIRECTIONS` in `geometry.rs`. -/
def N_DIRECTIONS : ℕ := 32

/-- Embeds `Direction::opposite` from `geometry.rs`: with `dimensions = 32`,
`((dimensions / 2) + (value % dimensions)) % dimensions`, where `%` is the
Rust (truncated) remainder on `i16`, i.e. `Int.tmod`. -/
def oppositeVal (v : ℤ) : ℤ := (16 + v.tmod 32).tmod 32

/-- Embeds `rotate(iteration, rotation)` from `geometry.rs`.  The handedness is a
`Bool` (`true` = Clockwise).  `((iteration - 1) as f32 / 2.).floor()` is
exact floor division (`Int.fdiv`), and the Rust `%` on `i16` is the
truncated remainder (`Int.tmod`); both agree with f32 arithmetic on the
small values involved. -/
def rotateVal (iteration : ℤ) (cw : Bool) : ℤ :=
  let f : ℤ := (iteration - 1).fdiv 2
  if cw then
    -(1 + f) + 2 * (1 + f) * ((iteration - 1).tmod 2)
  else
    (1 + f) - 2 * (1 + f) * ((iteration - 1).tmod 2)

/-- The full sequence emitted by a `Rotator` seeded with direction value
`seed` (an `i16`, modelled as ℤ) and handedness `cw`: the iterator emits
`direction + rotate(times - 1, rotation)` for `times = 1, …, 32` and then
terminates (`geometry.rs`, `impl Iterator for Rotator`). -/
def rotatorList (seed : ℤ) (cw : Bool) : List ℤ :=
  (List.range N_DIRECTIONS).map (fun (t : ℕ) => seed + rotateVal (t : ℤ) cw)

/-- The seed-independent offsets emitted by the Rotator. -/
def rotatorOffsets (cw : Bool) : List ℤ :=
  (List.range N_DIRECTIONS).map (fun (t : ℕ) => rotateVal (t : ℤ) cw)

theorem rotatorList_eq_map (seed : ℤ) (cw : Bool) :
    rotatorList seed cw = (rotatorOffsets cw).map (fun v => seed + v) := by
  simp [rotatorList, rotatorOffsets, List.map_map, Function.comp]

theorem rotatorOffsets_pairwise (cw : Bool) :
    List.Pairwise (fun a b => (a - b) % 32 ≠ 0) (rotatorOffsets cw) := by
  cases cw <;> decide

theorem rotatorOffsets_cover (cw : Bool) :
    ∀ r ∈ List.range 32, ∃ o ∈ rotatorOffsets cw, (o - (r : ℤ)) % 32 = 0 := by
  cases cw <;> decide

/-- C7: for every seed direction and either handedness, the Rotator emits
exactly 32 directions before terminating; they are pairwise distinct
modulo 32; every one of the 32 sectors of the ring is covered; the first
emitted direction is the seed; and the last emitted direction is the
seed's opposite (180° around, i.e. equal to `opposite(seed)` modulo 32). -/
theorem rotator_emits_ring (seed : ℤ) (cw : Bool) :
    (rotatorList seed cw).length = 32 ∧
    List.Pairwise (fun a b => (a - b) % 32 ≠ 0) (rotatorList seed cw) ∧
    (∀ c : ℤ, ∃ d ∈ rotatorList seed cw, (d - c) % 32 = 0) ∧
    (rotatorList seed cw).head? = some seed ∧
    ∃ l, (rotatorList seed cw).getLast? = some l ∧ (l - oppositeVal seed) % 32 = 0 := by
  refine ⟨?_, ?_, ?_, ?_, ?_⟩
  · rw [rotatorList, List.length_map, List.length_range]; rfl
  · rw [rotatorList_eq_map, List.pairwise_map]
    have h := rotatorOffsets_pairwise cw
    refine h.imp ?_
    intro a b hab
    intro hcon
    exact hab (by omega)
  · intro c
    have h0 : 0 ≤ (c - seed) % 32 := Int.emod_nonneg _ (by norm_num)
    have h1 : (c - seed) % 32 < 32 := Int.emod_lt_of_pos _ (by norm_num)
    have hr : ((c - seed) % 32).toNat ∈ List.range 32 := by
      simp only [List.mem_range]; omega
    obtain ⟨o, ho, hmod⟩ := rotatorOffsets_cover cw _ hr
    refine ⟨seed + o, ?_, ?_⟩
    · rw [rotatorList_eq_map]
      exact List.mem_map_of_mem _ ho
    · have hcast : (((c - seed) % 32).toNat : ℤ) = (c - seed) % 32 :=
        Int.toNat_of_nonneg h0
      rw [hcast] at hmod
      omega
  · have h1 : (rotatorList seed cw).head? = ((List.range N_DIRECTIONS).head?).map
        (fun (t : ℕ) => seed + rotateVal (t : ℤ) cw) := by
      rw [rotatorList, List.head?_map]
    have h2 : (List.range N_DIRECTIONS).head? = some 0 := by decide
    have h3 : rotateVal 0 cw = 0 := by cases cw <;> decide
    rw [h1, h2]
    simp [h3]
  · have h1 : (rotatorList seed cw).getLast? = ((List.range N_DIRECTIONS).getLast?).map
        (fun (t : ℕ) => seed + rotateVal (t : ℤ) cw) := by
      rw [rotatorList, List.getLast?_map]
    have h2 : (List.range N_DIRECTIONS).getLast? = some 31 := by decide
    refine ⟨seed + rotateVal 31 cw, ?_, ?_⟩
    · rw [h1, h2]; simp
    · have h3 : rotateVal 31 cw = if cw then -16 else 16 := by cases cw <;> decide
      have h4 : oppositeVal seed = (16 + seed.tmod 32).tmod 32 := rfl
      have h5 := Int.tmod_add_tdiv seed 32
      have h6 := Int.tmod_add_tdiv (16 + seed.tmod 32) 32
      rw [h4]
      cases cw <;> simp only [h3] <;> omega

/-- Abstraction of the transcendental geometry of `geometry.rs`.
`directionTo a b` is `Point::direction_to` (atan2 bearing quantized by
`Direction::from_radians`); `dirPoint d` is `Direction::point` (the unit
vector of sector `d`, obtained by rotating `(1,0)`); `connect d o t` is
`Direction::connect(o, t, vision_range)` with the one vision-range angle
the scene ever uses (`WormStats::default().vision_range = 5π/4`) baked in.
Theorems quantify over every `Geom`, covering the real f32 functions. -/
structure Geom where
  directionTo : Point → Point → ℤ
  dirPoint : ℤ → Point
  connect : ℤ → Point → Point → Bool

/-- Embeds `Point::copy`: the point advanced `dist` along direction `d`. -/
def Point.copyDir (g : Geom) (p : Point) (d : ℤ) (dist : ℚ) : Point :=
  p.add ((g.dirPoint d).scale dist)

/-- Embeds `MAX_SIZE` from `composites.rs`. -/
def MAX_SIZE : ℕ := 32

/-- Embeds `WormBehavior` from `composites.rs`. -/
inductive WormBehavior where
  | Alive (counter : ℕ)
  | Dead (counter : ℕ)
  | Chasing
  | Removed
deriving DecidableEq, Repr

/-- Scene accesses of `behaviors[i]` are always in bounds; the default is
only needed to state `getD` lookups. -/
instance : Inhabited WormBehavior := ⟨WormBehavior.Removed⟩

/-- Embeds `WormBody` from `composites.rs`: the fixed `[WormPart; MAX_SIZE]`
array is a 32-element list, `start`/`size` the ring indices. -/
structure WormBody where
  target : Point
  parts : List Point
  start : ℕ
  size : ℕ
deriving DecidableEq, Repr

/-- Embeds `WormBody::default()`: 32 zero points, `start = 0`, `size = 0`. -/
def wormBodyDefault : WormBody :=
  ⟨⟨0, 0⟩, List.replicate MAX_SIZE ⟨0, 0⟩, 0, 0⟩

instance : Inhabited WormBody := ⟨wormBodyDefault⟩

/-- Embeds `WormBody::head`: `parts[start]`. -/
def WormBody.head (b : WormBody) : Point := b.parts.getD b.start default

/-- Embeds `WormBody::tail`: `parts[(MAX_SIZE + start - size + 1) % MAX_SIZE]`. -/
def WormBody.tail (b : WormBody) : Point :=
  b.parts.getD ((MAX_SIZE + b.start - b.size + 1) % MAX_SIZE) default

/-- Embeds `WormBody::full`. -/
def WormBody.full (b : WormBody) : Bool := b.size == MAX_SIZE

/-- Embeds `WormBody::set_size`. -/
def WormBody.setSize (b : WormBody) (s : ℕ) : WormBody := { b with size := s }

/-- Embeds `WormBody::available_space`. -/
def WormBody.availableSpace (b : WormBody) : ℕ := MAX_SIZE - b.size

/-- Embeds `WormBody::shrink`. -/
def WormBody.shrink (b : WormBody) (n : ℕ) : WormBody :=
  { b with start := (MAX_SIZE + b.start - n) % MAX_SIZE, size := b.size - n }

/-- Embeds `WormBody::shift`: translate the `size` live segments by `p`. -/
def WormBody.shift (b : WormBody) (p : Point) : WormBody :=
  { b with parts := (List.range b.size).foldl (fun ps i =>
      ps.set ((MAX_SIZE + b.start - i) % MAX_SIZE)
        ((ps.getD ((MAX_SIZE + b.start - i) % MAX_SIZE) default).add p)) b.parts }

/-- Embeds `WormBody::roll`: advance the head pointer, write the new head,
remember the target. -/
def WormBody.roll (b : WormBody) (part tgt : Point) : WormBody :=
  let s := (b.start + 1) % MAX_SIZE
  { b with start := s, parts := b.parts.set s part, target := tgt }

/-- Embeds `WormBody::grow`: `roll(part, part)` then `size = MAX_SIZE.min(size + 1)`. -/
def WormBody.grow (b : WormBody) (part : Point) : WormBody :=
  let b' := b.roll part part
  { b' with size := min MAX_SIZE (b'.size + 1) }

/-- Forward iteration (`WormBodyIterator::next`): element `c` (0-based)
sits at `parts[(1 + MAX_SIZE + start - (c+1)) % MAX_SIZE]`; head first. -/
def WormBody.toList (b : WormBody) : List Point :=
  (List.range b.size).map
    (fun c => b.parts.getD ((1 + MAX_SIZE + b.start - (c + 1)) % MAX_SIZE) default)

/-- Reverse iteration (`WormBodyIterator::next_back`, used through
`.iter().rev()`): element `c` sits at
`parts[(MAX_SIZE + start + (c+1) - size) % MAX_SIZE]`; tail first. -/
def WormBody.toListRev (b : WormBody) : List Point :=
  (List.range b.size).map
    (fun c => b.parts.getD ((MAX_SIZE + b.start + (c + 1) - b.size) % MAX_SIZE) default)

/-- Embeds `WormBody::new(size, head, direction, part_size)` from `composites.rs`.
The constructor writes `parts = [head; MAX_SIZE]`, computes
`start = size - 1` (a usize subtraction that underflows when `size = 0`),
then runs `for i in (1..=start).rev() { parts[i-1] = parts[i].copy(direction,
part_size * 2.) }`.  The `Option` result models panics: `none` when
`size = 0` (underflow in debug mode; the wrapped `start` indexes out of
bounds in release mode) and when `start ≥ MAX_SIZE` (the loop reads
`parts[start]` out of bounds). -/
def wormBodyNew (g : Geom) (size : ℕ) (head : Point) (direction : ℤ)
    (partSize : ℚ) : Option WormBody :=
  if size = 0 then Option.none
  else
    let start := size - 1
    if MAX_SIZE ≤ start then Option.none
    else
      let init := List.replicate MAX_SIZE head
      let parts := (List.range start).foldl
        (fun ps j =>
          let i := start - j
          ps.set (i - 1) (Point.copyDir g (ps.getD i default) direction (partSize * 2)))
        init
      some ⟨head, parts, start, size⟩

/-- C10: `WormBody::new(size, head, direction, part_size)` is panic-free
exactly under the precondition `1 ≤ size ≤ MAX_SIZE`: for `size = 0` the
`start = size - 1` computation underflows and the constructor panics, and
for `size > MAX_SIZE` the segment-construction loop indexes past the
32-element array and panics. -/
theorem wormBodyNew_total_iff (g : Geom) (size : ℕ) (head : Point)
    (direction : ℤ) (partSize : ℚ) :
    (wormBodyNew g size head direction partSize).isSome ↔
      1 ≤ size ∧ size ≤ MAX_SIZE := by
  rw [wormBodyNew]
  rcases Nat.eq_zero_or_pos size with h | h
  · subst h; simp
  · rw [if_neg (by omega)]
    by_cases h2 : MAX_SIZE ≤ size - 1
    · rw [if_pos h2]
      simp only [Option.isSome_none, Bool.false_eq_true, false_iff]
      rw [MAX_SIZE] at h2 ⊢
      omega
    · rw [if_neg h2]
      simp only [Option.isSome_some, true_iff]
      rw [MAX_SIZE] at h2 ⊢
      omega

theorem getD_set_self {α : Type} [Inhabited α] (l : List α) (i : ℕ) (x : α)
    (h : i < l.length) : (l.set i x).getD i default = x := by
  simp [List.getD, List.getElem?_set_self', h]

theorem getD_set_ne {α : Type} [Inhabited α] (l : List α) {i j : ℕ} (x : α)
    (h : i ≠ j) : (l.set i x).getD j default = l.getD j default := by
  simp [List.getD, List.getElem?_set_ne h]

theorem WormBody.grow_size (b : WormBody) (x : Point) :
    (b.grow x).size = min MAX_SIZE (b.size + 1) := rfl

theorem WormBody.grow_parts_length (b : WormBody) (x : Point) :
    (b.grow x).parts.length = b.parts.length := List.length_set ..

theorem WormBody.foldl_grow_size (L : List Point) (b : WormBody)
    (hs : b.size ≤ MAX_SIZE) :
    (L.foldl WormBody.grow b).size = min MAX_SIZE (b.size + L.length) := by
  induction L generalizing b with
  | nil =>
      rw [MAX_SIZE] at hs ⊢
      simp only [List.foldl_nil, List.length_nil]
      omega
  | cons x xs ih =>
      rw [List.foldl_cons, ih _ (by rw [WormBody.grow_size, MAX_SIZE]; omega),
        WormBody.grow_size]
      rw [MAX_SIZE] at hs ⊢
      simp only [List.length_cons]
      omega

theorem WormBody.foldl_grow_parts_length (L : List Point) (b : WormBody) :
    (L.foldl WormBody.grow b).parts.length = b.parts.length := by
  induction L generalizing b with
  | nil => rfl
  | cons x xs ih => rw [List.foldl_cons, ih, WormBody.grow_parts_length]

theorem WormBody.toList_length (b : WormBody) : b.toList.length = b.size := by
  simp [WormBody.toList]

theorem WormBody.toListRev_length (b : WormBody) : b.toListRev.length = b.size := by
  simp [WormBody.toListRev]

theorem WormBody.grow_toList (b : WormBody) (x : Point) (hs : b.size < 32)
    (hp : b.parts.length = 32) : (b.grow x).toList = x :: b.toList := by
  have hgs : (b.grow x).size = b.size + 1 := by
    rw [WormBody.grow_size, MAX_SIZE]
    omega
  have hstart : (b.grow x).start = (b.start + 1) % 32 := rfl
  have hparts : (b.grow x).parts = b.parts.set ((b.start + 1) % 32) x := rfl
  apply List.ext_getElem
  · rw [WormBody.toList_length, hgs]
    simp [WormBody.toList_length]
  · intro i h1 h2
    rw [WormBody.toList_length, hgs] at h1
    simp only [WormBody.toList, List.getElem_map, List.getElem_range]
    cases i with
    | zero =>
        have hpos : (1 + MAX_SIZE + (b.grow x).start - (0 + 1)) % MAX_SIZE
            = (b.start + 1) % 32 := by
          rw [hstart, MAX_SIZE]; omega
        rw [hpos, hparts, List.getElem_cons_zero]
        exact getD_set_self _ _ _ (by omega)
    | succ j =>
        have hj : j < b.size := by omega
        have hpos : (1 + MAX_SIZE + (b.grow x).start - (j + 1 + 1)) % MAX_SIZE
            = (32 + b.start - j) % 32 := by
          rw [hstart, MAX_SIZE]; omega
        have hne : (b.start + 1) % 32 ≠ (32 + b.start - j) % 32 := by omega
        rw [hpos, hparts, getD_set_ne b.parts x hne, List.getElem_cons_succ]
        simp only [WormBody.toList, List.getElem_map, List.getElem_range]
        have heq : (1 + MAX_SIZE + b.start - (j + 1)) % MAX_SIZE
            = (32 + b.start - j) % 32 := by
          rw [MAX_SIZE]; omega
        rw [heq]

theorem WormBody.foldl_grow_toList (L : List Point) (b : WormBody)
    (hs : b.size + L.length ≤ 32) (hp : b.parts.length = 32) :
    (L.foldl WormBody.grow b).toList = L.reverse ++ b.toList := by
  induction L generalizing b with
  | nil => simp
  | cons x xs ih =>
      simp only [List.length_cons] at hs
      rw [List.foldl_cons, ih _ ?_ ?_]
      · rw [WormBody.grow_toList b x (by omega) hp]
        simp
      · rw [WormBody.grow_size, MAX_SIZE]
        omega
      · rw [WormBody.grow_parts_length, hp]

theorem WormBody.toListRev_eq_reverse (b : WormBody) (hs : b.size ≤ 32) :
    b.toListRev = b.toList.reverse := by
  apply List.ext_getElem
  · rw [WormBody.toListRev_length, List.length_reverse, WormBody.toList_length]
  · intro i h1 h2
    rw [WormBody.toListRev_length] at h1
    rw [List.getElem_reverse]
    simp only [WormBody.toListRev, WormBody.toList, List.getElem_map,
      List.getElem_range, List.length_map, List.length_range]
    have heq : (MAX_SIZE + b.start + (i + 1) - b.size) % MAX_SIZE
        = (1 + MAX_SIZE + b.start - (b.size - 1 - i + 1)) % MAX_SIZE := by
      rw [MAX_SIZE]; omega
    rw [heq]

theorem WormBody.setSize_toList (b : WormBody) (m : ℕ) (hm : m ≤ b.size) :
    (b.setSize m).toList = b.toList.take m := by
  simp only [WormBody.toList, WormBody.setSize]
  rw [← List.map_take, List.take_range, Nat.min_eq_left hm]

theorem WormBody.shrink_size (b : WormBody) (n : ℕ) : (b.shrink n).size = b.size - n := rfl

theorem WormBody.shift_size (b : WormBody) (p : Point) : (b.shift p).size = b.size := rfl

theorem WormBody.setSize_size (b : WormBody) (m : ℕ) : (b.setSize m).size = m := rfl

/-- The list collected by `Scene::split_worm`'s
`bodies[worm_id].iter().rev().take(worm_size).cloned().collect()`:
the first `k` elements of the reversed (tail-first) body iteration. -/
def splitCopyList (donor : WormBody) (k : ℕ) : List Point :=
  donor.toListRev.take k

/-- Embeds `Scene::merge_worms(worm_id, target_id)` from `scene.rs`, statement by
statement: shrink the chaser by one, align it on the target's tail, copy
`available_space()` segments from the target's tail end via repeated
`grow`, shrink the target by the number transferred, and mark the target
`Removed` when its size reaches zero. -/
def mergeWorms (bodies : List WormBody) (behaviors : List WormBehavior)
    (wormId targetId : ℕ) : List WormBody × List WormBehavior :=
  let bodies1 := bodies.set wormId ((bodies.getD wormId default).shrink 1)
  let diff := ((bodies1.getD targetId default).tail).sub
      ((bodies1.getD wormId default).head)
  let bodies2 := bodies1.set wormId ((bodies1.getD wormId default).shift diff)
  let originalWormSize := (bodies2.getD wormId default).size
  let copied := (bodies2.getD targetId default).toListRev.take
      ((bodies2.getD wormId default).availableSpace)
  let bodies3 := bodies2.set wormId
      (copied.foldl WormBody.grow (bodies2.getD wormId default))
  let removed := (bodies3.getD wormId default).size - originalWormSize
  let targetWormSize := (bodies3.getD targetId default).size - removed
  let bodies4 := bodies3.set targetId
      ((bodies3.getD targetId default).setSize targetWormSize)
  let behaviors1 := if targetWormSize = 0
      then behaviors.set targetId WormBehavior.Removed else behaviors
  (bodies4, behaviors1)

/-- Example geometry used for concrete runs: along the x-axis the real
`atan2` bearing is exactly 0 or π, which `Direction::from_angle`
quantizes to sectors 0 and 16, whose exact unit vectors are (1,0) and
(-1,0).  The values at other sectors never influence the concrete runs
below (the first Rotator candidate is always accepted). -/
def exGeom : Geom where
  directionTo := fun a b => if b.x < a.x then 16 else 0
  dirPoint := fun d =>
    if d % 32 = 16 then ⟨-1, 0⟩ else if d % 32 = 0 then ⟨1, 0⟩ else ⟨0, 1⟩
  connect := fun _ _ _ => true

/-- A concrete 4-segment donor: the body produced by
`WormBody::new(4, (0,0), east, 5.0)` — head (0,0), then (10,0), (20,0),
tail (30,0), matching the repository's own `bodies` unit test — written
as an explicit ring buffer (`start = 3`, `size = 4`). -/
def exDonor : WormBody :=
  ⟨⟨0, 0⟩, ⟨30, 0⟩ :: ⟨20, 0⟩ :: ⟨10, 0⟩ :: ⟨0, 0⟩ :: List.replicate 28 ⟨0, 0⟩, 3, 4⟩

/-- C5 counterexample: the list `Scene::split_worm` collects through
`iter().rev().take(worm_size)` on the concrete donor consists of the
REARMOST two segments (tail first), not the foremost (head-ward) two the
claim describes. -/
theorem splitCopyList_not_foremost :
    splitCopyList exDonor 2 = [⟨30, 0⟩, ⟨20, 0⟩] ∧
    exDonor.toList.take 2 = [⟨0, 0⟩, ⟨10, 0⟩] ∧
    splitCopyList exDonor 2 ≠ exDonor.toList.take 2 := by
  refine ⟨by decide, by decide, by decide⟩

/-- C5 amended: each iteration of a split copies the rearmost `k`
(`spawn_segment_count`) segments — the tail-ward ones, read tail→head by
the reversed body iterator — from the donor into the newly activated slot
via repeated `grow` (so the new slot's head→tail order matches the
donor's), and reduces the donor's size by `k` via `set_size`, the donor
keeping its head-ward segments. -/
theorem split_copies_rearmost (donor b0 : WormBody) (k : ℕ)
    (hs : donor.size ≤ 32) (hk : k ≤ donor.size)
    (hb0 : b0.size = 0) (hb0p : b0.parts.length = 32) :
    splitCopyList donor k = (donor.toList.drop (donor.size - k)).reverse ∧
    ((splitCopyList donor k).foldl WormBody.grow b0).toList
        = donor.toList.drop (donor.size - k) ∧
    (donor.setSize (donor.size - k)).toList = donor.toList.take (donor.size - k) ∧
    (donor.setSize (donor.size - k)).size = donor.size - k := by
  have hlen : donor.toList.length = donor.size := WormBody.toList_length donor
  have hcopy : splitCopyList donor k = (donor.toList.drop (donor.size - k)).reverse := by
    rw [splitCopyList, WormBody.toListRev_eq_reverse donor hs, List.take_reverse, hlen]
  refine ⟨hcopy, ?_, ?_, rfl⟩
  · have hb0nil : b0.toList = [] := by
      have := WormBody.toList_length b0
      rw [hb0] at this
      exact List.eq_nil_of_length_eq_zero this
    have hclen : (splitCopyList donor k).length = k := by
      rw [splitCopyList, List.length_take, WormBody.toListRev_length]
      omega
    rw [WormBody.foldl_grow_toList _ _ (by omega) hb0p, hb0nil, List.append_nil,
      hcopy, List.reverse_reverse]
  · exact WormBody.setSize_toList donor _ (by omega)

/-- Witness for the amended C5 theorem at the concrete donor. -/
theorem split_copies_rearmost_witness :
    splitCopyList exDonor 2 = (exDonor.toList.drop (exDonor.size - 2)).reverse ∧
    ((splitCopyList exDonor 2).foldl WormBody.grow wormBodyDefault).toList
        = exDonor.toList.drop (exDonor.size - 2) ∧
    (exDonor.setSize (exDonor.size - 2)).toList
        = exDonor.toList.take (exDonor.size - 2) ∧
    (exDonor.setSize (exDonor.size - 2)).size = exDonor.size - 2 :=
  split_copies_rearmost exDonor wormBodyDefault 2 (by decide) (by decide)
    (by decide) (by decide)

/-- Characterization of `mergeWorms` when the two indices are distinct and
in bounds (as they are whenever the scene calls it: the chaser is Chasing,
the target Alive). -/
theorem mergeWorms_spec (bodies : List WormBody) (behaviors : List WormBehavior)
    (wid tid : ℕ) (hne : wid ≠ tid) (hw : wid < bodies.length) :
    mergeWorms bodies behaviors wid tid =
      (let c2 := ((bodies.getD wid default).shrink 1).shift
           ((bodies.getD tid default).tail.sub
             (((bodies.getD wid default).shrink 1).head))
       let c3 := ((bodies.getD tid default).toListRev.take c2.availableSpace).foldl
           WormBody.grow c2
       let tws := (bodies.getD tid default).size - (c3.size - c2.size)
       ((bodies.set wid c3).set tid ((bodies.getD tid default).setSize tws),
        if tws = 0 then behaviors.set tid WormBehavior.Removed else behaviors)) := by
  have A1 : ∀ x : WormBody, (bodies.set wid x).getD wid default = x :=
    fun x => getD_set_self _ _ _ hw
  have A2 : ∀ x : WormBody, (bodies.set wid x).getD tid default
      = bodies.getD tid default := fun x => getD_set_ne _ _ hne
  simp only [mergeWorms, List.set_set, A1, A2]

/-- C6: for every merge of a chaser worm `wid` with a target worm `tid`
(`wid ≠ tid`, both of size ≥ 1, target currently Alive), the sum of the
two live segment counts after the merge equals the sum before the merge
minus exactly one (the chaser's detached head), and the target is marked
`Removed` if and only if its post-merge size is exactly 0. -/
theorem merge_conserves_segments (bodies : List WormBody)
    (behaviors : List WormBehavior) (wid tid a : ℕ)
    (hne : wid ≠ tid) (hw : wid < bodies.length) (ht : tid < bodies.length)
    (hbt : tid < behaviors.length)
    (h1 : 1 ≤ (bodies.getD wid default).size)
    (h2 : (bodies.getD wid default).size ≤ 32)
    (h3 : 1 ≤ (bodies.getD tid default).size)
    (h4 : (bodies.getD tid default).size ≤ 32)
    (hbeh : behaviors.getD tid default = WormBehavior.Alive a) :
    ((mergeWorms bodies behaviors wid tid).1.getD wid default).size
        + ((mergeWorms bodies behaviors wid tid).1.getD tid default).size + 1
      = (bodies.getD wid default).size + (bodies.getD tid default).size ∧
    ((mergeWorms bodies behaviors wid tid).2.getD tid default = WormBehavior.Removed
      ↔ ((mergeWorms bodies behaviors wid tid).1.getD tid default).size = 0) := by
  rw [mergeWorms_spec bodies behaviors wid tid hne hw]
  simp only []
  set c := bodies.getD wid default with hc
  set t := bodies.getD tid default with ht0
  set c2 := (c.shrink 1).shift (t.tail.sub ((c.shrink 1).head)) with hc2
  set copied := t.toListRev.take c2.availableSpace with hcopied
  set c3 := copied.foldl WormBody.grow c2 with hc3
  set tws := t.size - (c3.size - c2.size) with htws
  have hc2size : c2.size = c.size - 1 := by
    rw [hc2, WormBody.shift_size, WormBody.shrink_size]
  have havail : c2.availableSpace = 32 - c2.size := by
    rw [WormBody.availableSpace, MAX_SIZE]
  have hcopiedLen : copied.length = min c2.availableSpace t.size := by
    rw [hcopied, List.length_take, WormBody.toListRev_length]
  have hc3size : c3.size = min 32 (c2.size + copied.length) := by
    rw [hc3, WormBody.foldl_grow_size _ _ (by rw [MAX_SIZE]; omega), MAX_SIZE]
  have hwlen : wid < (bodies.set wid c3).length := by
    rw [List.length_set]; exact hw
  have htlen : tid < (bodies.set wid c3).length := by
    rw [List.length_set]; exact ht
  have gw : ((bodies.set wid c3).set tid (t.setSize tws)).getD wid default = c3 := by
    rw [getD_set_ne _ _ (fun h => hne h.symm), getD_set_self _ _ _ hw]
  have gt : ((bodies.set wid c3).set tid (t.setSize tws)).getD tid default
      = t.setSize tws := getD_set_self _ _ _ htlen
  rw [gw, gt, WormBody.setSize_size]
  constructor
  · omega
  · constructor
    · intro hrem
      by_cases h0 : tws = 0
      · exact h0
      · rw [if_neg h0, hbeh] at hrem
        exact absurd hrem (by simp)
    · intro hsz
      rw [if_pos hsz]
      exact getD_set_self _ _ _ hbt

/-- Embeds `MovementDetails` from `movement.rs`.  `stats.vision_range` is folded
into `Geom.connect`; `visionDistance` is `stats.vision_distance`. -/
structure MovementDetails where
  origin : Point
  chosenDestination : Point
  visionDistance : ℚ
  width : ℚ
  height : ℚ

/-- Embeds `MovementDetails::choose_destination`: keep the remembered destination
while it is farther than the vision distance, otherwise draw a random
point (`rnd` is the `Point::rand(width, height)` draw). -/
def MovementDetails.chooseDestination (d : MovementDetails) (rnd : Point) : Point :=
  if distGtB d.origin d.chosenDestination d.visionDistance then d.chosenDestination
  else rnd

/-- Embeds `MovementDetails::is_inside_area`: `new_head.x <= width && new_head.y
<= height` — the source checks only the upper bounds. -/
def MovementDetails.isInsideArea (d : MovementDetails) (newHead : Point) : Bool :=
  decide (newHead.x ≤ d.width) && decide (newHead.y ≤ d.height)

/-- Embeds `MovementResult` from `movement.rs`. -/
inductive MovementResult where
  | targetHit (id : ℕ) (head : Point)
  | targetMiss (head : Point) (dest : Point)
  | none
deriving DecidableEq, Repr

/-- Embeds `in_range` from `movement.rs`: the vision-cone test on the bearing to
the remembered destination, plus the hard vision-distance cutoff. -/
def inRange (g : Geom) (origin destination target : Point)
    (visionDistance : ℚ) : Bool :=
  g.connect (g.directionTo origin destination) origin target
    && distLtB origin target visionDistance

/-- Embeds `ValidTarget` from `movement.rs`; the stored f32 `distance` is kept as
its square (`total_cmp` on nonnegative distances orders exactly like the
squares). -/
structure ValidTarget where
  targetId : ℕ
  target : Point
  distSq : ℚ
deriving Repr

/-- One combining step of rayon's `min_by(total_cmp)` reduction: keep the
left element unless the right one is strictly closer (ties keep the left,
i.e. the lower-index, element). -/
def minStep (a b : ValidTarget) : ValidTarget := if b.distSq < a.distSq then b else a

/-- rayon `min_by` over the candidate list (deterministic: the combining
step is associative, so the tree reduction equals the left fold). -/
def minByDist : List ValidTarget → Option ValidTarget
  | [] => Option.none
  | x :: xs => some (xs.foldl minStep x)

/-- The candidates of `AliveWormMover::select_target`: every reward in
range, with its index (`AliveWormMover::to_valid_target`). -/
def aliveValidTargets (g : Geom) (d : MovementDetails)
    (rewards : List Point) : List ValidTarget :=
  rewards.enum.filterMap (fun p =>
    if inRange g d.origin d.chosenDestination p.2 d.visionDistance then
      some ⟨p.1, p.2, d.origin.distSq p.2⟩
    else Option.none)

/-- Embeds `AliveWormMover::select_target`. -/
def selectTargetAlive (g : Geom) (d : MovementDetails) (rewards : List Point)
    (rnd : Point) : Option ℕ × Point :=
  match minByDist (aliveValidTargets g d rewards) with
  | some v => (some v.targetId, v.target)
  | Option.none => (Option.none, d.chooseDestination rnd)

/-- Embeds `AliveWormMover::collides`: any segment of any body within
`distance - 0.01` of the candidate. -/
def collidesAlive (bodies : List WormBody) (part : Point) (distance : ℚ) : Bool :=
  bodies.any (fun body =>
    body.toList.any (fun p => distLtB p part (distance - 1/100)))

/-- Embeds `matches!(behavior, WormBehavior::Alive(_))`. -/
def WormBehavior.isAlive : WormBehavior → Bool
  | .Alive _ => true
  | _ => false

/-- The candidates of `ChasingWormMover::select_target`: the tail of every
worm currently Alive, in range (`ChasingWormMover::to_valid_target`). -/
def chasingValidTargets (g : Geom) (d : MovementDetails)
    (bodies : List WormBody) (behaviors : List WormBehavior) : List ValidTarget :=
  bodies.enum.filterMap (fun p =>
    if (behaviors.getD p.1 default).isAlive then
      if inRange g d.origin d.chosenDestination p.2.tail d.visionDistance then
        some ⟨p.1, p.2.tail, d.origin.distSq p.2.tail⟩
      else Option.none
    else Option.none)

/-- Embeds `ChasingWormMover::select_target`. -/
def selectTargetChasing (g : Geom) (d : MovementDetails)
    (bodies : List WormBody) (behaviors : List WormBehavior)
    (rnd : Point) : Option ℕ × Point :=
  match minByDist (chasingValidTargets g d bodies behaviors) with
  | some v => (some v.targetId, v.target)
  | Option.none => (Option.none, d.chooseDestination rnd)

/-- Embeds `ChasingWormMover::collides`: the segments of every worm (skipping the
tail of Alive worms, which is a valid strike target) and every reward,
each within `distance - 0.1` of the candidate. -/
def collidesChasing (bodies : List WormBody) (behaviors : List WormBehavior)
    (rewards : List Point) (part : Point) (distance : ℚ) : Bool :=
  (bodies.enum.any (fun p =>
      (if (behaviors.getD p.1 default).isAlive then p.2.toList.take (p.2.size - 1)
       else p.2.toList.take p.2.size).any
        (fun q => distLtB q part (distance - 1/10))))
  || rewards.any (fun q => distLtB q part (distance - 1/10))

/-- Embeds `Mover::execute_movement(distance)` from `movement.rs`, generic over
the select-target result `st` and the `collides` test of the two mover
variants; `cw` is the Rotator handedness drawn in `Rotator::new`.
The branch `(targetId = none, destination reached)` yields
`MovementResult.none`: in the source, `target_id.map(...)` is `None`
there, `then_some` wraps it as `Some(None)`, `unwrap_or` unwraps it back
to `None`, and the outer `and_then ... unwrap_or(MovementResult::None)`
turns it into `MovementResult::None`. -/
def executeMovementWith (g : Geom) (d : MovementDetails) (st : Option ℕ × Point)
    (collides : Point → ℚ → Bool) (cw : Bool) (distance : ℚ) : MovementResult :=
  let targetId := st.1
  let destination := st.2
  match (rotatorList (g.directionTo d.origin destination) cw).findSome?
      (fun dir =>
        let newHead := Point.copyDir g d.origin dir distance
        if d.isInsideArea newHead && !(collides newHead distance) then some newHead
        else Option.none) with
  | Option.none => MovementResult.none
  | some validHead =>
      if distLtB destination validHead distance then
        match targetId with
        | some id => MovementResult.targetHit id validHead
        | Option.none => MovementResult.none
      else MovementResult.targetMiss validHead destination

/-- Embeds `execute_movement` of `AliveWormMover`. -/
def executeMovementAlive (g : Geom) (bodies : List WormBody)
    (rewards : List Point) (d : MovementDetails) (rnd : Point) (cw : Bool)
    (distance : ℚ) : MovementResult :=
  executeMovementWith g d (selectTargetAlive g d rewards rnd)
    (collidesAlive bodies) cw distance

/-- Embeds `execute_movement` of `ChasingWormMover`. -/
def executeMovementChasing (g : Geom) (bodies : List WormBody)
    (behaviors : List WormBehavior) (rewards : List Point)
    (d : MovementDetails) (rnd : Point) (cw : Bool) (distance : ℚ) :
    MovementResult :=
  executeMovementWith g d (selectTargetChasing g d bodies behaviors rnd)
    (collidesChasing bodies behaviors rewards) cw distance

theorem rotatorList_eq_cons (seed : ℤ) (cw : Bool) :
    rotatorList seed cw
      = (seed + rotateVal 0 cw)
        :: (List.range 31).map (fun (t : ℕ) => seed + rotateVal ((t : ℤ) + 1) cw) := by
  rw [rotatorList]
  have h : List.range N_DIRECTIONS = 0 :: (List.range 31).map Nat.succ := by decide
  rw [h, List.map_cons, List.map_map]
  refine congrArg₂ _ (by norm_num) ?_
  refine List.map_congr_left ?_
  intro t _
  simp [Function.comp, Nat.succ_eq_add_one]

/-- Movement details of the C1 failing run: head (0,0), remembered
destination (301,0) (farther than the 300 vision distance, hence kept by
`choose_destination`), 1000×1000 world. -/
def exDetailsC1 : MovementDetails := ⟨⟨0, 0⟩, ⟨301, 0⟩, 300, 1000, 1000⟩

/-- Evaluation of the C1 failing run: an `AliveWormMover` with no rewards
and no obstacles, step distance 400.  The first Rotator candidate (sector
0) is accepted, giving head (400,0); the destination (301,0) is within
400 of it, yet, `target_id` being `None`, the result is
`MovementResult::None`. -/
theorem evalAliveRunC1 :
    executeMovementAlive exGeom [] [] exDetailsC1 ⟨0, 0⟩ true 400
      = MovementResult.none ∧
    (rotatorList (exGeom.directionTo exDetailsC1.origin
        (selectTargetAlive exGeom exDetailsC1 [] ⟨0, 0⟩).2) true).findSome?
      (fun dir =>
        let newHead := Point.copyDir exGeom exDetailsC1.origin dir 400
        if exDetailsC1.isInsideArea newHead && !(collidesAlive [] newHead 400)
        then some newHead else Option.none) = some ⟨400, 0⟩ := by
  have hsel : selectTargetAlive exGeom exDetailsC1 [] ⟨0, 0⟩
      = (Option.none, ⟨301, 0⟩) := by
    rw [selectTargetAlive]
    rw [show aliveValidTargets exGeom exDetailsC1 [] = [] from rfl]
    rw [show minByDist [] = Option.none from rfl]
    rw [MovementDetails.chooseDestination]
    rw [show distGtB exDetailsC1.origin exDetailsC1.chosenDestination
        exDetailsC1.visionDistance = true by
      simp only [distGtB, Point.distSq, exDetailsC1, decide_eq_true_eq]
      norm_num]
    rw [if_pos rfl]
    rfl
  have hdir : exGeom.directionTo exDetailsC1.origin (⟨301, 0⟩ : Point) = 0 := by
    rw [show exGeom.directionTo = fun a b => if b.x < a.x then 16 else 0 from rfl]
    simp only [exDetailsC1]
    norm_num
  have hhead : Point.copyDir exGeom exDetailsC1.origin ((0 : ℤ) + rotateVal 0 true) 400
      = (⟨400, 0⟩ : Point) := by
    rw [show ((0 : ℤ) + rotateVal 0 true) = 0 by decide]
    rw [Point.copyDir, show exGeom.dirPoint 0 = (⟨1, 0⟩ : Point) by decide]
    simp only [Point.add, Point.scale, exDetailsC1, Point.mk.injEq]
    norm_num
  have hfind : (rotatorList 0 true).findSome?
      (fun dir =>
        let newHead := Point.copyDir exGeom exDetailsC1.origin dir 400
        if exDetailsC1.isInsideArea newHead && !(collidesAlive [] newHead 400)
        then some newHead else Option.none) = some ⟨400, 0⟩ := by
    rw [rotatorList_eq_cons, List.findSome?_cons]
    rw [hhead]
    decide
  have hlt : distLtB (⟨301, 0⟩ : Point) (⟨400, 0⟩ : Point) 400 = true := by
    simp only [distLtB, Point.distSq, decide_eq_true_eq]
    norm_num
  constructor
  · rw [executeMovementAlive, executeMovementWith, hsel]
    simp only []
    rw [hdir, hfind]
    simp [hlt]
  · rw [hsel]
    simp only []
    rw [hdir]
    exact hfind

/-- C4 amended, proof core: every head accepted by `execute_movement`
(reported through `TargetMiss` or `TargetHit`) passed `is_inside_area`,
which checks only the UPPER bounds `h.x ≤ width` and `h.y ≤ height`;
nothing constrains the coordinates from below. -/
theorem accepted_head_upper_bounds (g : Geom) (d : MovementDetails)
    (st : Option ℕ × Point) (coll : Point → ℚ → Bool) (cw : Bool) (distance : ℚ)
    (h p : Point) (id : ℕ)
    (hres : executeMovementWith g d st coll cw distance = MovementResult.targetMiss h p
        ∨ executeMovementWith g d st coll cw distance = MovementResult.targetHit id h) :
    h.x ≤ d.width ∧ h.y ≤ d.height := by
  rw [executeMovementWith] at hres
  simp only [] at hres
  cases hfs : (rotatorList (g.directionTo d.origin st.2) cw).findSome?
      (fun dir =>
        let newHead := Point.copyDir g d.origin dir distance
        if d.isInsideArea newHead && !(coll newHead distance) then some newHead
        else Option.none) with
  | none =>
      rw [hfs] at hres
      rcases hres with h1 | h1 <;> exact absurd h1 (by simp)
  | some validHead =>
      rw [hfs] at hres
      have hhv : h = validHead := by
        dsimp only [] at hres
        rcases hres with h1 | h1 <;> split_ifs at h1
        · cases hst : st.1 with
          | none => rw [hst] at h1; exact absurd h1 (by simp)
          | some i => rw [hst] at h1; exact absurd h1 (by simp)
        · simp only [MovementResult.targetMiss.injEq] at h1
          exact h1.1.symm
        · cases hst : st.1 with
          | none => rw [hst] at h1; exact absurd h1 (by simp)
          | some i =>
              rw [hst] at h1
              simp only [MovementResult.targetHit.injEq] at h1
              exact h1.2.symm
      obtain ⟨dirv, _, hfd⟩ := List.exists_of_findSome?_eq_some hfs
      dsimp only [] at hfd
      by_cases hcond : (d.isInsideArea (Point.copyDir g d.origin dirv distance)
          && !(coll (Point.copyDir g d.origin dirv distance) distance)) = true
      · rw [if_pos hcond] at hfd
        have hv : Point.copyDir g d.origin dirv distance = validHead :=
          Option.some.inj hfd
        rw [hv] at hcond
        simp only [Bool.and_eq_true] at hcond
        have hin := hcond.1
        rw [MovementDetails.isInsideArea] at hin
        simp only [Bool.and_eq_true, decide_eq_true_eq] at hin
        rw [hhv]
        exact hin
      · rw [if_neg hcond] at hfd
        exact absurd hfd (by simp)

/-- Movement details of the C4 run: head (0,0), remembered destination
(-400,0), 1000×1000 world. -/
def exDetailsC4 : MovementDetails := ⟨⟨0, 0⟩, ⟨-400, 0⟩, 300, 1000, 1000⟩

/-- Evaluation of the C4 run: sector 16 is chosen toward (-400,0); the
first Rotator candidate is accepted, giving head (-2,0) — which has a
NEGATIVE x coordinate, yet passes `is_inside_area`. -/
theorem evalAliveRunC4 :
    executeMovementAlive exGeom [] [] exDetailsC4 ⟨0, 0⟩ true 2
      = MovementResult.targetMiss ⟨-2, 0⟩ ⟨-400, 0⟩ := by
  have hsel : selectTargetAlive exGeom exDetailsC4 [] ⟨0, 0⟩
      = (Option.none, ⟨-400, 0⟩) := by
    rw [selectTargetAlive]
    rw [show aliveValidTargets exGeom exDetailsC4 [] = [] from rfl]
    rw [show minByDist [] = Option.none from rfl]
    rw [MovementDetails.chooseDestination]
    rw [show distGtB exDetailsC4.origin exDetailsC4.chosenDestination
        exDetailsC4.visionDistance = true by
      simp only [distGtB, Point.distSq, exDetailsC4, decide_eq_true_eq]
      norm_num]
    rw [if_pos rfl]
    rfl
  have hdir : exGeom.directionTo exDetailsC4.origin (⟨-400, 0⟩ : Point) = 16 := by
    rw [show exGeom.directionTo = fun a b => if b.x < a.x then 16 else 0 from rfl]
    simp only [exDetailsC4]
    norm_num
  have hhead : Point.copyDir exGeom exDetailsC4.origin ((16 : ℤ) + rotateVal 0 true) 2
      = (⟨-2, 0⟩ : Point) := by
    rw [show ((16 : ℤ) + rotateVal 0 true) = 16 by decide]
    rw [Point.copyDir, show exGeom.dirPoint 16 = (⟨-1, 0⟩ : Point) by decide]
    simp only [Point.add, Point.scale, exDetailsC4, Point.mk.injEq]
    norm_num
  have hfind : (rotatorList 16 true).findSome?
      (fun dir =>
        let newHead := Point.copyDir exGeom exDetailsC4.origin dir 2
        if exDetailsC4.isInsideArea newHead && !(collidesAlive [] newHead 2)
        then some newHead else Option.none) = some ⟨-2, 0⟩ := by
    rw [rotatorList_eq_cons, List.findSome?_cons]
    rw [hhead]
    decide
  have hlt : distLtB (⟨-400, 0⟩ : Point) (⟨-2, 0⟩ : Point) 2 = false := by
    simp only [distLtB, Point.distSq, decide_eq_false_iff_not]
    norm_num
  rw [executeMovementAlive, executeMovementWith, hsel]
  simp only []
  rw [hdir, hfind]
  simp [hlt]

/-- C4 counterexample: a movement attempt whose accepted head has a
NEGATIVE x coordinate — the claim's lower bound `0 ≤ h.x` does not hold
on the code, which checks only the upper world bounds. -/
theorem accepted_head_not_lower_bounded :
    executeMovementAlive exGeom [] [] exDetailsC4 ⟨0, 0⟩ true 2
      = MovementResult.targetMiss ⟨-2, 0⟩ ⟨-400, 0⟩ ∧
    ¬ (0 ≤ (⟨-2, 0⟩ : Point).x) :=
  ⟨evalAliveRunC4, by norm_num⟩

/-- Witness for the amended C4 theorem at the concrete C4 run. -/
theorem accepted_head_upper_bounds_witness :
    (⟨-2, 0⟩ : Point).x ≤ exDetailsC4.width ∧
    (⟨-2, 0⟩ : Point).y ≤ exDetailsC4.height :=
  accepted_head_upper_bounds exGeom exDetailsC4
    (selectTargetAlive exGeom exDetailsC4 [] ⟨0, 0⟩) (collidesAlive []) true 2
    ⟨-2, 0⟩ ⟨-400, 0⟩ 0 (Or.inl evalAliveRunC4)

theorem pairwise_fst_lt_enumFrom {α : Type} (n : ℕ) (l : List α) :
    List.Pairwise (fun p q => p.1 < q.1) (List.enumFrom n l) := by
  induction l generalizing n with
  | nil => simp
  | cons x xs ih =>
      rw [List.enumFrom_cons]
      refine List.Pairwise.cons ?_ (ih (n + 1))
      intro q hq
      have := List.le_fst_of_mem_enumFrom hq
      omega

theorem aliveValidTargets_pairwise (g : Geom) (d : MovementDetails)
    (rewards : List Point) :
    (aliveValidTargets g d rewards).Pairwise
      (fun v w => v.targetId < w.targetId) := by
  rw [aliveValidTargets]
  refine List.Pairwise.filterMap _ ?_ (pairwise_fst_lt_enumFrom 0 rewards)
  intro a a' hlt b hb b' hb'
  by_cases h1 : inRange g d.origin d.chosenDestination a.2 d.visionDistance
  · by_cases h2 : inRange g d.origin d.chosenDestination a'.2 d.visionDistance
    · rw [if_pos h1] at hb
      rw [if_pos h2] at hb'
      have e1 : b = ⟨a.1, a.2, d.origin.distSq a.2⟩ := by
        cases hb; rfl
      have e2 : b' = ⟨a'.1, a'.2, d.origin.distSq a'.2⟩ := by
        cases hb'; rfl
      rw [e1, e2]
      exact hlt
    · rw [if_neg h2] at hb'
      cases hb'
  · rw [if_neg h1] at hb
    cases hb

theorem chasingValidTargets_pairwise (g : Geom) (d : MovementDetails)
    (bodies : List WormBody) (behaviors : List WormBehavior) :
    (chasingValidTargets g d bodies behaviors).Pairwise
      (fun v w => v.targetId < w.targetId) := by
  rw [chasingValidTargets]
  refine List.Pairwise.filterMap _ ?_ (pairwise_fst_lt_enumFrom 0 bodies)
  intro a a' hlt b hb b' hb'
  by_cases g1 : (behaviors.getD a.1 default).isAlive
  · by_cases g2 : (behaviors.getD a'.1 default).isAlive
    · by_cases h1 : inRange g d.origin d.chosenDestination a.2.tail d.visionDistance
      · by_cases h2 : inRange g d.origin d.chosenDestination a'.2.tail d.visionDistance
        · rw [if_pos g1, if_pos h1] at hb
          rw [if_pos g2, if_pos h2] at hb'
          have e1 : b = ⟨a.1, a.2.tail, d.origin.distSq a.2.tail⟩ := by
            cases hb; rfl
          have e2 : b' = ⟨a'.1, a'.2.tail, d.origin.distSq a'.2.tail⟩ := by
            cases hb'; rfl
          rw [e1, e2]
          exact hlt
        · rw [if_pos g2, if_neg h2] at hb'; cases hb'
      · rw [if_pos g1, if_neg h1] at hb; cases hb
    · rw [if_neg g2] at hb'; cases hb'
  · rw [if_neg g1] at hb; cases hb

/-- rayon's `min_by(total_cmp)` reduction keeps the closest candidate,
resolving distance ties in favor of the earlier (lower-index) one. -/
theorem foldl_minStep_spec (xs : List ValidTarget) (x : ValidTarget)
    (hpw : (x :: xs).Pairwise (fun v w => v.targetId < w.targetId)) :
    (xs.foldl minStep x) ∈ x :: xs ∧
    ∀ w ∈ x :: xs, (xs.foldl minStep x).distSq < w.distSq ∨
      ((xs.foldl minStep x).distSq = w.distSq ∧
        (xs.foldl minStep x).targetId ≤ w.targetId) := by
  induction xs generalizing x with
  | nil =>
      refine ⟨List.mem_singleton_self x, ?_⟩
      intro w hw
      rw [List.mem_singleton] at hw
      subst hw
      exact Or.inr ⟨rfl, le_refl _⟩
  | cons y ys ih =>
      rw [List.pairwise_cons] at hpw
      obtain ⟨hxall, hpw'⟩ := hpw
      have hpys := (List.pairwise_cons.mp hpw').2
      have hyall := (List.pairwise_cons.mp hpw').1
      have hxy : x.targetId < y.targetId := hxall y (List.mem_cons_self y ys)
      rw [List.foldl_cons, minStep]
      by_cases hlt : y.distSq < x.distSq
      · rw [if_pos hlt]
        obtain ⟨hm, hall⟩ := ih y (List.pairwise_cons.mpr ⟨hyall, hpys⟩)
        refine ⟨List.mem_cons_of_mem x hm, ?_⟩
        intro w hw
        rcases List.mem_cons.mp hw with hw1 | hw2
        · rw [hw1]
          have hv := hall y (List.mem_cons_self y ys)
          rcases hv with h | ⟨h, _⟩
          · exact Or.inl (lt_trans h hlt)
          · exact Or.inl (by rw [h]; exact hlt)
        · exact hall w hw2
      · rw [if_neg hlt]
        push_neg at hlt
        obtain ⟨hm, hall⟩ := ih x (List.pairwise_cons.mpr
          ⟨fun q hq => hxall q (List.mem_cons_of_mem y hq), hpys⟩)
        refine ⟨?_, ?_⟩
        · rcases List.mem_cons.mp hm with h | h
          · exact List.mem_cons.mpr (Or.inl h)
          · exact List.mem_cons_of_mem x (List.mem_cons_of_mem y h)
        · intro w hw
          rcases List.mem_cons.mp hw with hw1 | hw2
          · rw [hw1]
            exact hall x (List.mem_cons_self x ys)
          · rcases List.mem_cons.mp hw2 with hw3 | hw3
            · rw [hw3]
              have hv := hall x (List.mem_cons_self x ys)
              rcases hv with h | ⟨h, hid⟩
              · exact Or.inl (lt_of_lt_of_le h hlt)
              · rcases lt_or_eq_of_le hlt with h2 | h2
                · exact Or.inl (by rw [h]; exact h2)
                · exact Or.inr ⟨h.trans h2, le_trans hid (le_of_lt hxy)⟩
            · exact hall w (List.mem_cons_of_mem x hw3)

theorem aliveValidTargets_distSq (g : Geom) (d : MovementDetails)
    (rewards : List Point) (v : ValidTarget)
    (hv : v ∈ aliveValidTargets g d rewards) :
    v.distSq = d.origin.distSq v.target := by
  rw [aliveValidTargets] at hv
  obtain ⟨p, _, hp⟩ := List.mem_filterMap.mp hv
  by_cases h1 : inRange g d.origin d.chosenDestination p.2 d.visionDistance
  · rw [if_pos h1] at hp
    cases hp
    rfl
  · rw [if_neg h1] at hp
    cases hp

theorem chasingValidTargets_distSq (g : Geom) (d : MovementDetails)
    (bodies : List WormBody) (behaviors : List WormBehavior) (v : ValidTarget)
    (hv : v ∈ chasingValidTargets g d bodies behaviors) :
    v.distSq = d.origin.distSq v.target := by
  rw [chasingValidTargets] at hv
  obtain ⟨p, _, hp⟩ := List.mem_filterMap.mp hv
  by_cases g1 : (behaviors.getD p.1 default).isAlive
  · by_cases h1 : inRange g d.origin d.chosenDestination p.2.tail d.visionDistance
    · rw [if_pos g1, if_pos h1] at hp
      cases hp
      rfl
    · rw [if_pos g1, if_neg h1] at hp
      cases hp
  · rw [if_neg g1] at hp
    cases hp

/-- C3: for both mover variants, `select_target` returns, among the
candidates passing the vision-cone test and the vision-distance cutoff
(the `aliveValidTargets` / `chasingValidTargets` lists), the one at
minimum Euclidean distance from the worm's head (distances compared
through their squares, which orders identically), breaking distance ties
by the lowest candidate index; when no candidate qualifies it returns the
remembered destination if that destination is farther than the vision
distance from the head, otherwise the freshly drawn random point `rnd`
(`Point::rand` within world bounds). -/
theorem select_target_closest (g : Geom) (d : MovementDetails)
    (rewards : List Point) (bodies : List WormBody)
    (behaviors : List WormBehavior) (rnd : Point) :
    ((aliveValidTargets g d rewards = [] ∧
        selectTargetAlive g d rewards rnd = (Option.none,
          if distGtB d.origin d.chosenDestination d.visionDistance then
            d.chosenDestination else rnd)) ∨
      (∃ v ∈ aliveValidTargets g d rewards,
        selectTargetAlive g d rewards rnd = (some v.targetId, v.target) ∧
        v.distSq = d.origin.distSq v.target ∧
        ∀ w ∈ aliveValidTargets g d rewards,
          v.distSq < w.distSq ∨ (v.distSq = w.distSq ∧ v.targetId ≤ w.targetId))) ∧
    ((chasingValidTargets g d bodies behaviors = [] ∧
        selectTargetChasing g d bodies behaviors rnd = (Option.none,
          if distGtB d.origin d.chosenDestination d.visionDistance then
            d.chosenDestination else rnd)) ∨
      (∃ v ∈ chasingValidTargets g d bodies behaviors,
        selectTargetChasing g d bodies behaviors rnd = (some v.targetId, v.target) ∧
        v.distSq = d.origin.distSq v.target ∧
        ∀ w ∈ chasingValidTargets g d bodies behaviors,
          v.distSq < w.distSq ∨ (v.distSq = w.distSq ∧ v.targetId ≤ w.targetId))) := by
  constructor
  · cases hF : aliveValidTargets g d rewards with
    | nil =>
        left
        refine ⟨rfl, ?_⟩
        rw [selectTargetAlive, hF]
        rfl
    | cons x xs =>
        right
        have hpw := aliveValidTargets_pairwise g d rewards
        rw [hF] at hpw
        obtain ⟨hm, hall⟩ := foldl_minStep_spec xs x hpw
        refine ⟨xs.foldl minStep x, hm, ?_, ?_, hall⟩
        · rw [selectTargetAlive, hF]
          rfl
        · exact aliveValidTargets_distSq g d rewards _ (by rw [hF]; exact hm)
  · cases hF : chasingValidTargets g d bodies behaviors with
    | nil =>
        left
        refine ⟨rfl, ?_⟩
        rw [selectTargetChasing, hF]
        rfl
    | cons x xs =>
        right
        have hpw := chasingValidTargets_pairwise g d bodies behaviors
        rw [hF] at hpw
        obtain ⟨hm, hall⟩ := foldl_minStep_spec xs x hpw
        refine ⟨xs.foldl minStep x, hm, ?_, ?_, hall⟩
        · rw [selectTargetChasing, hF]
          rfl
        · exact chasingValidTargets_distSq g d bodies behaviors _ (by rw [hF]; exact hm)

/-- Witness for C3 at a concrete (empty-candidate) instance. -/
theorem select_target_closest_witness :
    ((aliveValidTargets exGeom exDetailsC1 [] = [] ∧
        selectTargetAlive exGeom exDetailsC1 [] ⟨0, 0⟩ = (Option.none,
          if distGtB exDetailsC1.origin exDetailsC1.chosenDestination
              exDetailsC1.visionDistance then
            exDetailsC1.chosenDestination else ⟨0, 0⟩)) ∨
      (∃ v ∈ aliveValidTargets exGeom exDetailsC1 [],
        selectTargetAlive exGeom exDetailsC1 [] ⟨0, 0⟩ = (some v.targetId, v.target) ∧
        v.distSq = exDetailsC1.origin.distSq v.target ∧
        ∀ w ∈ aliveValidTargets exGeom exDetailsC1 [],
          v.distSq < w.distSq ∨ (v.distSq = w.distSq ∧ v.targetId ≤ w.targetId))) ∧
    ((chasingValidTargets exGeom exDetailsC1 [] [] = [] ∧
        selectTargetChasing exGeom exDetailsC1 [] [] ⟨0, 0⟩ = (Option.none,
          if distGtB exDetailsC1.origin exDetailsC1.chosenDestination
              exDetailsC1.visionDistance then
            exDetailsC1.chosenDestination else ⟨0, 0⟩)) ∨
      (∃ v ∈ chasingValidTargets exGeom exDetailsC1 [] [],
        selectTargetChasing exGeom exDetailsC1 [] [] ⟨0, 0⟩ = (some v.targetId, v.target) ∧
        v.distSq = exDetailsC1.origin.distSq v.target ∧
        ∀ w ∈ chasingValidTargets exGeom exDetailsC1 [] [],
          v.distSq < w.distSq ∨ (v.distSq = w.distSq ∧ v.targetId ≤ w.targetId))) :=
  select_target_closest exGeom exDetailsC1 [] [] [] ⟨0, 0⟩

/-- Embeds `SceneParameters` from `scene.rs`. -/
structure SceneParameters where
  wormSize : ℕ
  bodySize : ℚ
  starvation : ℕ
  expiration : ℕ

/-- The scene fields that stay fixed during a tick: parameters, world
bounds (`width`, `height`, usize values used as f32 bounds), and the
`WormStats::default()` vision distance (300). -/
structure SceneEnv where
  params : SceneParameters
  width : ℚ
  height : ℚ
  visionDistance : ℚ

/-- Embeds `SceneContent` from `scene.rs`: the parallel collections. -/
structure SceneState where
  behaviors : List WormBehavior
  bodies : List WormBody
  rewards : List Point
  rewardDest : List Point

/-- The thread_rng draws of one tick, resolved as oracles: `rotFlip i a`
is the Rotator handedness of worm `i`'s attempt `a` (Chasing worms move
up to twice per tick), `randDest i a` the `Point::rand` fallback
destination of that attempt, `rewardRespawn i` the respawn position of a
reward eaten by worm `i`, `rewardWander i` the redrawn position of reward
`i` in `update_rewards`. -/
structure Rng where
  rotFlip : ℕ → ℕ → Bool
  randDest : ℕ → ℕ → Point
  rewardRespawn : ℕ → Point
  rewardWander : ℕ → Point

/-- Embeds `Scene::get_movement_details`. -/
def getMovementDetails (env : SceneEnv) (s : SceneState) (wid : ℕ) :
    MovementDetails :=
  ⟨(s.bodies.getD wid default).head, (s.bodies.getD wid default).target,
    env.visionDistance, env.width, env.height⟩

/-- Embeds `Scene::execute_alive` from `scene.rs`. -/
def executeAlive (g : Geom) (env : SceneEnv) (rng : Rng) (s : SceneState)
    (wid counter : ℕ) : WormBehavior × SceneState :=
  match executeMovementAlive g s.bodies s.rewards (getMovementDetails env s wid)
      (rng.randDest wid 0) (rng.rotFlip wid 0) (env.params.bodySize * 2) with
  | MovementResult.targetHit targetIndex newHead =>
      (WormBehavior.Alive 0,
       { s with rewards := s.rewards.set targetIndex (rng.rewardRespawn wid),
                bodies := s.bodies.set wid
                  ((s.bodies.getD wid default).grow newHead) })
  | MovementResult.targetMiss newHead destination =>
      let bodies := s.bodies.set wid
        ((s.bodies.getD wid default).roll newHead destination)
      if counter < env.params.starvation / (bodies.getD wid default).size then
        (WormBehavior.Alive (counter + 1), { s with bodies := bodies })
      else
        (WormBehavior.Chasing, { s with bodies := bodies })
  | MovementResult.none => (WormBehavior.Dead 0, s)

/-- Embeds `Scene::execute_chasing` from `scene.rs`; `attempt` keys the random
draws (a Chasing worm can move twice in one tick). -/
def executeChasing (g : Geom) (env : SceneEnv) (rng : Rng) (s : SceneState)
    (wid attempt : ℕ) : WormBehavior × SceneState :=
  match executeMovementChasing g s.bodies s.behaviors s.rewards
      (getMovementDetails env s wid) (rng.randDest wid attempt)
      (rng.rotFlip wid attempt) (env.params.bodySize * 2) with
  | MovementResult.targetHit targetIndex _ =>
      let r := mergeWorms s.bodies s.behaviors wid targetIndex
      (WormBehavior.Alive 0, { s with bodies := r.1, behaviors := r.2 })
  | MovementResult.targetMiss newHead destination =>
      let bodies := s.bodies.set wid
        ((s.bodies.getD wid default).roll newHead destination)
      (WormBehavior.Chasing, { s with bodies := bodies })
  | MovementResult.none => (WormBehavior.Dead 0, s)

/-- Embeds `Scene::next_removed_index`: the index of a `Removed` slot, pushing a
fresh default slot onto both parallel vectors when none exists.  (The
source uses rayon `position_any`, which may return any matching index;
the model takes the first — the scene only needs some free slot.) -/
def nextRemovedIndex (s : SceneState) : ℕ × SceneState :=
  match s.behaviors.findIdx? (fun b => b == WormBehavior.Removed) with
  | some i => (i, s)
  | Option.none =>
      let bodies := s.bodies ++ [wormBodyDefault]
      let behaviors := s.behaviors ++ [WormBehavior.Removed]
      (bodies.length - 1, { s with bodies := bodies, behaviors := behaviors })

/-- One iteration of the `Scene::split_worm` while-loop. -/
def splitWormStep (env : SceneEnv) (s : SceneState) (wid : ℕ) : SceneState :=
  let sizeAfterSplit := (s.bodies.getD wid default).size - env.params.wormSize
  let r := nextRemovedIndex s
  let freeIndex := r.1
  let s1 := r.2
  let s2 := { s1 with behaviors := s1.behaviors.set freeIndex (WormBehavior.Alive 0) }
  let copied := splitCopyList (s2.bodies.getD wid default) env.params.wormSize
  let newBody := copied.foldl WormBody.grow (s2.bodies.getD freeIndex default)
  let bodies1 := s2.bodies.set freeIndex newBody
  let bodies2 := bodies1.set wid ((bodies1.getD wid default).setSize sizeAfterSplit)
  { s2 with bodies := bodies2 }

/-- The `Scene::split_worm` while-loop (`while size >= worm_size * 2`),
with explicit fuel: when `worm_size ≥ 1` every iteration strictly
decreases the donor's size, so `size + 1` iterations always suffice;
with `worm_size = 0` the source loop never terminates. -/
def splitWormLoop (env : SceneEnv) (wid : ℕ) :
    ℕ → SceneState → SceneState
  | 0, s => s
  | fuel + 1, s =>
      if env.params.wormSize * 2 ≤ (s.bodies.getD wid default).size then
        splitWormLoop env wid fuel (splitWormStep env s wid)
      else s

/-- Embeds `Scene::split_worm`. -/
def splitWorm (env : SceneEnv) (s : SceneState) (wid : ℕ) :
    WormBehavior × SceneState :=
  (WormBehavior.Alive 0,
   splitWormLoop env wid ((s.bodies.getD wid default).size + 1) s)

/-- One arm of the `Scene::update_worms` per-worm match. -/
def updateWormSlot (g : Geom) (env : SceneEnv) (rng : Rng) (s : SceneState)
    (wid : ℕ) : SceneState :=
  match s.behaviors.getD wid default with
  | WormBehavior.Alive counter =>
      if (s.bodies.getD wid default).full then
        let r := splitWorm env s wid
        { r.2 with behaviors := r.2.behaviors.set wid r.1 }
      else
        let r := executeAlive g env rng s wid counter
        { r.2 with behaviors := r.2.behaviors.set wid r.1 }
  | WormBehavior.Dead counter =>
      if counter < env.params.expiration then
        { s with behaviors := s.behaviors.set wid (WormBehavior.Dead (counter + 1)) }
      else
        { s with behaviors := s.behaviors.set wid WormBehavior.Removed,
                 bodies := s.bodies.set wid
                   ((s.bodies.getD wid default).setSize 0) }
  | WormBehavior.Chasing =>
      let r := executeChasing g env rng s wid 0
      match r.1 with
      | WormBehavior.Chasing =>
          let r2 := executeChasing g env rng r.2 wid 1
          { r2.2 with behaviors := r2.2.behaviors.set wid r2.1 }
      | _ => { r.2 with behaviors := r.2.behaviors.set wid r.1 }
  | WormBehavior.Removed => s

/-- Embeds `Scene::update_worms`: the `for worm_id in 0..behaviors.len()` loop
(its bound is evaluated once, before any split can push new slots). -/
def updateWorms (g : Geom) (env : SceneEnv) (rng : Rng) (s : SceneState) :
    SceneState :=
  (List.range s.behaviors.length).foldl (updateWormSlot g env rng) s

/-- The per-reward update of `Scene::update_rewards`: step toward the
wander destination; if the step leaves the upper world bounds or lands
within `body_size` of the destination, redraw the position at random. -/
def rewardStep (g : Geom) (env : SceneEnv) (rng : Rng) (dest : Point)
    (i : ℕ) (reward : Point) : Point :=
  let direction := g.directionTo reward dest
  let newReward := Point.copyDir g reward direction (env.params.bodySize / 4)
  let isValid := decide (newReward.x ≤ env.width)
      && decide (newReward.y ≤ env.height)
      && distGeB dest newReward env.params.bodySize
  if isValid then newReward else rng.rewardWander i

/-- Embeds `Scene::update_rewards`: the `for i in 0..reward_destination.len()`
loop, writing only `rewards[i]`. -/
def updateRewards (g : Geom) (env : SceneEnv) (rng : Rng) (s : SceneState) :
    SceneState :=
  let rewards := (List.range s.rewardDest.length).foldl
    (fun rws i => rws.set i
      (rewardStep g env rng (s.rewardDest.getD i default) i (rws.getD i default)))
    s.rewards
  { s with rewards := rewards }

/-- Embeds `Scene::execute`: one tick. -/
def executeScene (g : Geom) (env : SceneEnv) (rng : Rng) (s : SceneState) :
    SceneState :=
  updateRewards g env rng (updateWorms g env rng s)

theorem mergeWorms_lengths (bodies : List WormBody)
    (behaviors : List WormBehavior) (wid tid : ℕ) :
    (mergeWorms bodies behaviors wid tid).1.length = bodies.length ∧
    (mergeWorms bodies behaviors wid tid).2.length = behaviors.length := by
  rw [mergeWorms]
  constructor
  · simp [List.length_set]
  · simp only []
    split <;> simp [List.length_set]

theorem executeAlive_state (g : Geom) (env : SceneEnv) (rng : Rng)
    (s : SceneState) (wid counter : ℕ) :
    (executeAlive g env rng s wid counter).2.behaviors = s.behaviors ∧
    (executeAlive g env rng s wid counter).2.bodies.length = s.bodies.length ∧
    (executeAlive g env rng s wid counter).2.rewards.length = s.rewards.length ∧
    (executeAlive g env rng s wid counter).2.rewardDest = s.rewardDest := by
  rw [executeAlive]
  split
  · exact ⟨rfl, by simp [List.length_set], by simp [List.length_set], rfl⟩
  · simp only []
    split
    · exact ⟨rfl, by simp [List.length_set], rfl, rfl⟩
    · exact ⟨rfl, by simp [List.length_set], rfl, rfl⟩
  · exact ⟨rfl, rfl, rfl, rfl⟩

theorem executeChasing_state (g : Geom) (env : SceneEnv) (rng : Rng)
    (s : SceneState) (wid attempt : ℕ) :
    (executeChasing g env rng s wid attempt).2.behaviors.length
        = s.behaviors.length ∧
    (executeChasing g env rng s wid attempt).2.bodies.length = s.bodies.length ∧
    (executeChasing g env rng s wid attempt).2.rewards = s.rewards ∧
    (executeChasing g env rng s wid attempt).2.rewardDest = s.rewardDest := by
  rw [executeChasing]
  split
  · refine ⟨?_, ?_, rfl, rfl⟩
    · exact (mergeWorms_lengths s.bodies s.behaviors wid _).2
    · exact (mergeWorms_lengths s.bodies s.behaviors wid _).1
  · exact ⟨rfl, by simp [List.length_set], rfl, rfl⟩
  · exact ⟨rfl, rfl, rfl, rfl⟩

theorem nextRemovedIndex_state (s : SceneState) :
    ((nextRemovedIndex s).2.behaviors.length = s.behaviors.length ∧
      (nextRemovedIndex s).2.bodies.length = s.bodies.length) ∨
    ((nextRemovedIndex s).2.behaviors.length = s.behaviors.length + 1 ∧
      (nextRemovedIndex s).2.bodies.length = s.bodies.length + 1) := by
  rw [nextRemovedIndex]
  split
  · exact Or.inl ⟨rfl, rfl⟩
  · exact Or.inr ⟨by simp, by simp⟩

theorem nextRemovedIndex_rewards (s : SceneState) :
    (nextRemovedIndex s).2.rewards = s.rewards ∧
    (nextRemovedIndex s).2.rewardDest = s.rewardDest := by
  rw [nextRemovedIndex]
  split
  · exact ⟨rfl, rfl⟩
  · exact ⟨rfl, rfl⟩

theorem splitWormStep_state (env : SceneEnv) (s : SceneState) (wid : ℕ) :
    ((s.behaviors.length = s.bodies.length →
      (splitWormStep env s wid).behaviors.length
        = (splitWormStep env s wid).bodies.length) ∧
    s.behaviors.length ≤ (splitWormStep env s wid).behaviors.length) ∧
    (splitWormStep env s wid).rewards = s.rewards ∧
    (splitWormStep env s wid).rewardDest = s.rewardDest := by
  have hb : (splitWormStep env s wid).behaviors.length
      = (nextRemovedIndex s).2.behaviors.length := by
    rw [splitWormStep]
    simp [List.length_set]
  have ho : (splitWormStep env s wid).bodies.length
      = (nextRemovedIndex s).2.bodies.length := by
    rw [splitWormStep]
    simp [List.length_set]
  have hr : (splitWormStep env s wid).rewards = (nextRemovedIndex s).2.rewards := by
    rw [splitWormStep]
  have hd : (splitWormStep env s wid).rewardDest
      = (nextRemovedIndex s).2.rewardDest := by
    rw [splitWormStep]
  refine ⟨⟨?_, ?_⟩, ?_, ?_⟩
  · intro hP
    rw [hb, ho]
    rcases nextRemovedIndex_state s with ⟨e1, e2⟩ | ⟨e1, e2⟩ <;> omega
  · rw [hb]
    rcases nextRemovedIndex_state s with ⟨e1, _⟩ | ⟨e1, _⟩ <;> omega
  · rw [hr]
    exact (nextRemovedIndex_rewards s).1
  · rw [hd]
    exact (nextRemovedIndex_rewards s).2

theorem splitWormLoop_state (env : SceneEnv) (wid : ℕ) (fuel : ℕ) :
    ∀ s : SceneState,
    ((s.behaviors.length = s.bodies.length →
      (splitWormLoop env wid fuel s).behaviors.length
        = (splitWormLoop env wid fuel s).bodies.length) ∧
    s.behaviors.length ≤ (splitWormLoop env wid fuel s).behaviors.length) ∧
    (splitWormLoop env wid fuel s).rewards = s.rewards ∧
    (splitWormLoop env wid fuel s).rewardDest = s.rewardDest := by
  induction fuel with
  | zero => exact fun s => ⟨⟨fun h => h, le_refl _⟩, rfl, rfl⟩
  | succ n ih =>
      intro s
      rw [splitWormLoop]
      split
      · obtain ⟨⟨sp1, sp2⟩, sp3, sp4⟩ := splitWormStep_state env s wid
        obtain ⟨⟨i1, i2⟩, i3, i4⟩ := ih (splitWormStep env s wid)
        refine ⟨⟨?_, ?_⟩, ?_, ?_⟩
        · intro hP
          exact i1 (sp1 hP)
        · exact le_trans sp2 i2
        · rw [i3, sp3]
        · rw [i4, sp4]
      · exact ⟨⟨fun h => h, le_refl _⟩, rfl, rfl⟩

theorem updateWormSlot_state (g : Geom) (env : SceneEnv) (rng : Rng)
    (s : SceneState) (wid : ℕ) :
    ((s.behaviors.length = s.bodies.length →
      (updateWormSlot g env rng s wid).behaviors.length
        = (updateWormSlot g env rng s wid).bodies.length) ∧
    s.behaviors.length ≤ (updateWormSlot g env rng s wid).behaviors.length) ∧
    (updateWormSlot g env rng s wid).rewards.length = s.rewards.length ∧
    (updateWormSlot g env rng s wid).rewardDest = s.rewardDest := by
  rw [updateWormSlot]
  split
  · split
    · obtain ⟨⟨l1, l2⟩, l3, l4⟩ := splitWormLoop_state env wid
        ((s.bodies.getD wid default).size + 1) s
      rw [splitWorm]
      refine ⟨⟨?_, ?_⟩, ?_, ?_⟩ <;>
        simp only [List.length_set]
      · intro hP; exact l1 hP
      · exact l2
      · rw [l3]
      · exact l4
    · obtain ⟨e1, e2, e3, e4⟩ := executeAlive_state g env rng s wid _
      refine ⟨⟨?_, ?_⟩, ?_, ?_⟩ <;> simp only [List.length_set]
      · intro hP; rw [e1, e2]; exact hP
      · rw [e1]
      · exact e3
      · exact e4
  · split
    · exact ⟨⟨fun h => by simp [List.length_set, h], by simp [List.length_set]⟩,
        rfl, rfl⟩
    · exact ⟨⟨fun h => by simp [List.length_set, h], by simp [List.length_set]⟩,
        by simp, rfl⟩
  · obtain ⟨c1, c2, c3, c4⟩ := executeChasing_state g env rng s wid 0
    simp only []
    have hdefault : ∀ b : WormBehavior,
        ((s.behaviors.length = s.bodies.length →
          ((executeChasing g env rng s wid 0).2.behaviors.set wid b).length
            = (executeChasing g env rng s wid 0).2.bodies.length) ∧
        s.behaviors.length
          ≤ ((executeChasing g env rng s wid 0).2.behaviors.set wid b).length) ∧
        (executeChasing g env rng s wid 0).2.rewards.length = s.rewards.length ∧
        (executeChasing g env rng s wid 0).2.rewardDest = s.rewardDest := by
      intro b
      refine ⟨⟨?_, ?_⟩, ?_, ?_⟩
      · intro hP; rw [List.length_set, c1, c2]; exact hP
      · rw [List.length_set, c1]
      · rw [c3]
      · exact c4
    cases hr1 : (executeChasing g env rng s wid 0).1 with
    | Chasing =>
        obtain ⟨d1, d2, d3, d4⟩ := executeChasing_state g env rng
          (executeChasing g env rng s wid 0).2 wid 1
        refine ⟨⟨?_, ?_⟩, ?_, ?_⟩
        · intro hP; rw [List.length_set, d1, d2, c1, c2]; exact hP
        · rw [List.length_set, d1, c1]
        · rw [d3, c3]
        · rw [d4, c4]
    | Alive counter => exact hdefault _
    | Dead counter => exact hdefault _
    | Removed => exact hdefault _
  · exact ⟨⟨fun h => h, le_refl _⟩, rfl, rfl⟩

theorem updateWorms_foldl_state (g : Geom) (env : SceneEnv) (rng : Rng) :
    ∀ (l : List ℕ) (s : SceneState),
    ((s.behaviors.length = s.bodies.length →
      (l.foldl (updateWormSlot g env rng) s).behaviors.length
        = (l.foldl (updateWormSlot g env rng) s).bodies.length) ∧
    s.behaviors.length ≤ (l.foldl (updateWormSlot g env rng) s).behaviors.length) ∧
    (l.foldl (updateWormSlot g env rng) s).rewards.length = s.rewards.length ∧
    (l.foldl (updateWormSlot g env rng) s).rewardDest = s.rewardDest := by
  intro l
  induction l with
  | nil => exact fun s => ⟨⟨fun h => h, le_refl _⟩, rfl, rfl⟩
  | cons i tl ih =>
      intro s
      rw [List.foldl_cons]
      obtain ⟨⟨u1, u2⟩, u3, u4⟩ := updateWormSlot_state g env rng s i
      obtain ⟨⟨v1, v2⟩, v3, v4⟩ := ih (updateWormSlot g env rng s i)
      refine ⟨⟨fun hP => v1 (u1 hP), le_trans u2 v2⟩, ?_, ?_⟩
      · rw [v3, u3]
      · rw [v4, u4]

theorem updateWorms_state (g : Geom) (env : SceneEnv) (rng : Rng)
    (s : SceneState) :
    ((s.behaviors.length = s.bodies.length →
      (updateWorms g env rng s).behaviors.length
        = (updateWorms g env rng s).bodies.length) ∧
    s.behaviors.length ≤ (updateWorms g env rng s).behaviors.length) ∧
    (updateWorms g env rng s).rewards.length = s.rewards.length ∧
    (updateWorms g env rng s).rewardDest = s.rewardDest :=
  updateWorms_foldl_state g env rng (List.range s.behaviors.length) s

/-- The indexed-update fold of `update_rewards`: it keeps the list length,
touches only indices below `n`, and rewrites each in-bounds index `j`
from the original value. -/
theorem foldl_set_range_spec {α : Type} [Inhabited α] (F : ℕ → α → α) :
    ∀ (n : ℕ) (l : List α),
      ((List.range n).foldl (fun acc i => acc.set i (F i (acc.getD i default))) l).length
        = l.length ∧
      (∀ j, n ≤ j →
        ((List.range n).foldl (fun acc i => acc.set i (F i (acc.getD i default))) l).getD
            j default = l.getD j default) ∧
      (∀ j, j < n → j < l.length →
        ((List.range n).foldl (fun acc i => acc.set i (F i (acc.getD i default))) l).getD
            j default = F j (l.getD j default)) := by
  intro n
  induction n with
  | zero => exact fun l => ⟨rfl, fun j _ => rfl, fun j h _ => absurd h (Nat.not_lt_zero j)⟩
  | succ n ih =>
      intro l
      rw [List.range_succ, List.foldl_append, List.foldl_cons, List.foldl_nil]
      obtain ⟨e1, e2, e3⟩ := ih l
      refine ⟨?_, ?_, ?_⟩
      · rw [List.length_set, e1]
      · intro j hj
        rw [getD_set_ne _ _ (by omega), e2 j (by omega)]
      · intro j hj hjl
        rcases Nat.lt_succ_iff_lt_or_eq.mp hj with h | h
        · rw [getD_set_ne _ _ (by omega), e3 j h hjl]
        · subst h
          rw [getD_set_self _ _ _ (by rw [e1]; exact hjl), e2 j (le_refl j)]

theorem updateRewards_state (g : Geom) (env : SceneEnv) (rng : Rng)
    (s : SceneState) :
    (updateRewards g env rng s).behaviors = s.behaviors ∧
    (updateRewards g env rng s).bodies = s.bodies ∧
    (updateRewards g env rng s).rewards.length = s.rewards.length ∧
    (updateRewards g env rng s).rewardDest = s.rewardDest := by
  refine ⟨rfl, rfl, ?_, rfl⟩
  rw [updateRewards]
  exact (foldl_set_range_spec _ s.rewardDest.length s.rewards).1

/-- C9: one tick (`Scene::execute`) keeps the parallel collections
aligned: `behaviors` and `bodies` have equal length afterwards, the worm
slot count never decreases (slots are only appended by splits, never
removed), and the `rewards` and `reward_destination` lengths are
unchanged. -/
theorem scene_tick_lengths (g : Geom) (env : SceneEnv) (rng : Rng)
    (s : SceneState) (hP : s.behaviors.length = s.bodies.length) :
    (executeScene g env rng s).behaviors.length
        = (executeScene g env rng s).bodies.length ∧
    s.behaviors.length ≤ (executeScene g env rng s).behaviors.length ∧
    (executeScene g env rng s).rewards.length = s.rewards.length ∧
    (executeScene g env rng s).rewardDest.length = s.rewardDest.length := by
  obtain ⟨⟨w1, w2⟩, w3, w4⟩ := updateWorms_state g env rng s
  obtain ⟨r1, r2, r3, r4⟩ := updateRewards_state g env rng
    (updateWorms g env rng s)
  rw [executeScene]
  refine ⟨?_, ?_, ?_, ?_⟩
  · rw [r1, r2]
    exact w1 hP
  · rw [r1]
    exact w2
  · rw [r3, w3]
  · rw [r4, w4]

/-- Witness for C9 at a concrete one-worm scene. -/
theorem scene_tick_lengths_witness :
    (executeScene exGeom ⟨⟨8, 1, 2000, 25⟩, 10000, 10000, 300⟩
        ⟨fun _ _ => true, fun _ _ => ⟨0, 0⟩, fun _ => ⟨0, 0⟩, fun _ => ⟨0, 0⟩⟩
        ⟨[WormBehavior.Removed], [wormBodyDefault], [], []⟩).behaviors.length
      = (executeScene exGeom ⟨⟨8, 1, 2000, 25⟩, 10000, 10000, 300⟩
        ⟨fun _ _ => true, fun _ _ => ⟨0, 0⟩, fun _ => ⟨0, 0⟩, fun _ => ⟨0, 0⟩⟩
        ⟨[WormBehavior.Removed], [wormBodyDefault], [], []⟩).bodies.length ∧
    ([WormBehavior.Removed] : List WormBehavior).length
      ≤ (executeScene exGeom ⟨⟨8, 1, 2000, 25⟩, 10000, 10000, 300⟩
        ⟨fun _ _ => true, fun _ _ => ⟨0, 0⟩, fun _ => ⟨0, 0⟩, fun _ => ⟨0, 0⟩⟩
        ⟨[WormBehavior.Removed], [wormBodyDefault], [], []⟩).behaviors.length ∧
    (executeScene exGeom ⟨⟨8, 1, 2000, 25⟩, 10000, 10000, 300⟩
        ⟨fun _ _ => true, fun _ _ => ⟨0, 0⟩, fun _ => ⟨0, 0⟩, fun _ => ⟨0, 0⟩⟩
        ⟨[WormBehavior.Removed], [wormBodyDefault], [], []⟩).rewards.length
      = ([] : List Point).length ∧
    (executeScene exGeom ⟨⟨8, 1, 2000, 25⟩, 10000, 10000, 300⟩
        ⟨fun _ _ => true, fun _ _ => ⟨0, 0⟩, fun _ => ⟨0, 0⟩, fun _ => ⟨0, 0⟩⟩
        ⟨[WormBehavior.Removed], [wormBodyDefault], [], []⟩).rewardDest.length
      = ([] : List Point).length :=
  scene_tick_lengths exGeom ⟨⟨8, 1, 2000, 25⟩, 10000, 10000, 300⟩
    ⟨fun _ _ => true, fun _ _ => ⟨0, 0⟩, fun _ => ⟨0, 0⟩, fun _ => ⟨0, 0⟩⟩
    ⟨[WormBehavior.Removed], [wormBodyDefault], [], []⟩ rfl

/-- C8: `Scene::update_rewards` (and the whole tick) never modifies
`reward_destination`; each reward either advances one step toward its
destination, or — when the step is rejected because it leaves the upper
world bounds or lands within `body_size` of the destination — only the
reward's position is redrawn at random (`rewardWander i`), the
destination staying the same. -/
theorem update_rewards_fixed_destinations (g : Geom) (env : SceneEnv)
    (rng : Rng) (s : SceneState)
    (hlen : s.rewards.length = s.rewardDest.length) :
    (executeScene g env rng s).rewardDest = s.rewardDest ∧
    (updateRewards g env rng s).rewardDest = s.rewardDest ∧
    ∀ i, i < s.rewardDest.length →
      (updateRewards g env rng s).rewards.getD i default
        = (let dest := s.rewardDest.getD i default
           let reward := s.rewards.getD i default
           let newReward := Point.copyDir g reward (g.directionTo reward dest)
               (env.params.bodySize / 4)
           if decide (newReward.x ≤ env.width) && decide (newReward.y ≤ env.height)
               && distGeB dest newReward env.params.bodySize
           then newReward else rng.rewardWander i) := by
  obtain ⟨⟨_, _⟩, _, w4⟩ := updateWorms_state g env rng s
  obtain ⟨_, _, _, r4⟩ := updateRewards_state g env rng (updateWorms g env rng s)
  refine ⟨?_, rfl, ?_⟩
  · rw [executeScene, r4, w4]
  · intro i hi
    rw [updateRewards]
    exact (foldl_set_range_spec _ s.rewardDest.length s.rewards).2.2 i hi
      (by rw [hlen]; exact hi)

/-- Witness for C8 at a concrete one-reward scene. -/
theorem update_rewards_fixed_destinations_witness :
    (executeScene exGeom ⟨⟨8, 1, 2000, 25⟩, 10000, 10000, 300⟩
        ⟨fun _ _ => true, fun _ _ => ⟨0, 0⟩, fun _ => ⟨0, 0⟩, fun _ => ⟨7, 7⟩⟩
        ⟨[], [], [⟨0, 0⟩], [⟨5, 0⟩]⟩).rewardDest = [⟨5, 0⟩] ∧
    (updateRewards exGeom ⟨⟨8, 1, 2000, 25⟩, 10000, 10000, 300⟩
        ⟨fun _ _ => true, fun _ _ => ⟨0, 0⟩, fun _ => ⟨0, 0⟩, fun _ => ⟨7, 7⟩⟩
        ⟨[], [], [⟨0, 0⟩], [⟨5, 0⟩]⟩).rewardDest = [⟨5, 0⟩] ∧
    ∀ i, i < ([⟨5, 0⟩] : List Point).length →
      (updateRewards exGeom ⟨⟨8, 1, 2000, 25⟩, 10000, 10000, 300⟩
          ⟨fun _ _ => true, fun _ _ => ⟨0, 0⟩, fun _ => ⟨0, 0⟩, fun _ => ⟨7, 7⟩⟩
          ⟨[], [], [⟨0, 0⟩], [⟨5, 0⟩]⟩).rewards.getD i default
        = (let dest := ([⟨5, 0⟩] : List Point).getD i default
           let reward := ([⟨0, 0⟩] : List Point).getD i default
           let newReward := Point.copyDir exGeom reward
               (exGeom.directionTo reward dest) ((1 : ℚ) / 4)
           if decide (newReward.x ≤ (10000 : ℚ)) && decide (newReward.y ≤ (10000 : ℚ))
               && distGeB dest newReward 1
           then newReward else (⟨7, 7⟩ : Point)) :=
  update_rewards_fixed_destinations exGeom ⟨⟨8, 1, 2000, 25⟩, 10000, 10000, 300⟩
    ⟨fun _ _ => true, fun _ _ => ⟨0, 0⟩, fun _ => ⟨0, 0⟩, fun _ => ⟨7, 7⟩⟩
    ⟨[], [], [⟨0, 0⟩], [⟨5, 0⟩]⟩ rfl

/-- Core of the corrected C2: when a worm is Chasing, `update_worms` runs
`execute_chasing` a first time, and — whenever that first attempt returns
`TargetMiss` — a SECOND time on the already-rolled state; if the second
attempt also misses, the slot ends the tick Chasing with its body rolled
twice. -/
theorem chasingSlotTwoMisses (g : Geom) (env : SceneEnv) (rng : Rng)
    (s : SceneState) (wid : ℕ) (h1 d1 h2 d2 : Point)
    (hwb : wid < s.behaviors.length) (hwo : wid < s.bodies.length)
    (hbeh : s.behaviors.getD wid default = WormBehavior.Chasing)
    (hm1 : executeMovementChasing g s.bodies s.behaviors s.rewards
        (getMovementDetails env s wid) (rng.randDest wid 0) (rng.rotFlip wid 0)
        (env.params.bodySize * 2) = MovementResult.targetMiss h1 d1)
    (hm2 : executeMovementChasing g
        (s.bodies.set wid ((s.bodies.getD wid default).roll h1 d1))
        s.behaviors s.rewards
        (getMovementDetails env
          { s with bodies := s.bodies.set wid ((s.bodies.getD wid default).roll h1 d1) }
          wid)
        (rng.randDest wid 1) (rng.rotFlip wid 1)
        (env.params.bodySize * 2) = MovementResult.targetMiss h2 d2) :
    (updateWormSlot g env rng s wid).behaviors.getD wid default
        = WormBehavior.Chasing ∧
    (updateWormSlot g env rng s wid).bodies.getD wid default
        = ((s.bodies.getD wid default).roll h1 d1).roll h2 d2 := by
  have e1 : executeChasing g env rng s wid 0
      = (WormBehavior.Chasing,
         { s with bodies := s.bodies.set wid ((s.bodies.getD wid default).roll h1 d1) }) := by
    rw [executeChasing, hm1]
  have hb2 : s.bodies.set wid
        (((s.bodies.getD wid default).roll h1 d1).roll h2 d2)
      = (s.bodies.set wid ((s.bodies.getD wid default).roll h1 d1)).set wid
        (((s.bodies.set wid ((s.bodies.getD wid default).roll h1 d1)).getD
            wid default).roll h2 d2) := by
    rw [getD_set_self _ _ _ hwo, List.set_set]
  have e2 : executeChasing g env rng
      { s with bodies := s.bodies.set wid ((s.bodies.getD wid default).roll h1 d1) }
      wid 1
      = (WormBehavior.Chasing,
         { s with bodies := (s.bodies.set wid
            (((s.bodies.getD wid default).roll h1 d1).roll h2 d2)) }) := by
    rw [executeChasing]
    dsimp only []
    rw [hm2, hb2]
  rw [updateWormSlot, hbeh]
  dsimp only []
  rw [e1]
  dsimp only []
  rw [e2]
  dsimp only []
  constructor
  · exact getD_set_self _ _ _ (by simpa using hwb)
  · exact getD_set_self _ _ _ hwo

/-- One-segment chasing worm at (0,0) with remembered target (1000,0). -/
def exChaseBody : WormBody := ⟨⟨1000, 0⟩, List.replicate 32 ⟨0, 0⟩, 0, 1⟩

/-- A scene holding just that chasing worm. -/
def exSceneC2 : SceneState := ⟨[WormBehavior.Chasing], [exChaseBody], [], []⟩

/-- Concrete environment (body_size 1, so step distance 2). -/
def exEnv : SceneEnv := ⟨⟨8, 1, 2000, 25⟩, 10000, 10000, 300⟩

/-- Concrete random draws. -/
def exRng : Rng := ⟨fun _ _ => true, fun _ _ => ⟨0, 0⟩, fun _ => ⟨0, 0⟩,
  fun _ => ⟨0, 0⟩⟩

theorem evalChasingRun1 :
    executeMovementChasing exGeom exSceneC2.bodies exSceneC2.behaviors
        exSceneC2.rewards (getMovementDetails exEnv exSceneC2 0)
        (exRng.randDest 0 0) (exRng.rotFlip 0 0) (exEnv.params.bodySize * 2)
      = MovementResult.targetMiss ⟨2, 0⟩ ⟨1000, 0⟩ := by
  have hd : getMovementDetails exEnv exSceneC2 0
      = ⟨⟨0, 0⟩, ⟨1000, 0⟩, 300, 10000, 10000⟩ := rfl
  have hstep : exEnv.params.bodySize * 2 = (2 : ℚ) := by
    show (1 : ℚ) * 2 = 2
    norm_num
  rw [hd, hstep, executeMovementChasing]
  have hsel : selectTargetChasing exGeom ⟨⟨0, 0⟩, ⟨1000, 0⟩, 300, 10000, 10000⟩
      exSceneC2.bodies exSceneC2.behaviors (exRng.randDest 0 0)
      = (Option.none, ⟨1000, 0⟩) := by
    rw [selectTargetChasing]
    rw [show chasingValidTargets exGeom ⟨⟨0, 0⟩, ⟨1000, 0⟩, 300, 10000, 10000⟩
        exSceneC2.bodies exSceneC2.behaviors = [] from rfl]
    rw [show minByDist [] = Option.none from rfl]
    rw [MovementDetails.chooseDestination]
    rw [show distGtB (⟨0, 0⟩ : Point) (⟨1000, 0⟩ : Point) 300 = true by
      simp only [distGtB, Point.distSq, decide_eq_true_eq]
      norm_num]
    rw [if_pos rfl]
  rw [executeMovementWith, hsel]
  dsimp only []
  rw [show exGeom.directionTo (⟨0, 0⟩ : Point) (⟨1000, 0⟩ : Point) = 0 by decide]
  have hhead : Point.copyDir exGeom (⟨0, 0⟩ : Point) ((0 : ℤ) + rotateVal 0 true) 2
      = (⟨2, 0⟩ : Point) := by
    rw [show ((0 : ℤ) + rotateVal 0 true) = 0 by decide]
    rw [Point.copyDir, show exGeom.dirPoint 0 = (⟨1, 0⟩ : Point) by decide]
    simp only [Point.add, Point.scale, Point.mk.injEq]
    norm_num
  have hcol : collidesChasing exSceneC2.bodies exSceneC2.behaviors
      exSceneC2.rewards (⟨2, 0⟩ : Point) 2 = false := by
    rw [collidesChasing]
    rw [show exSceneC2.bodies.enum = [(0, exChaseBody)] from rfl]
    simp only [List.any_cons, List.any_nil, Bool.or_false]
    rw [show ((exSceneC2.behaviors.getD 0 default).isAlive) = false from rfl]
    rw [if_neg (by simp)]
    rw [show exChaseBody.toList.take exChaseBody.size = [(⟨0, 0⟩ : Point)] from rfl]
    simp only [List.any_cons, List.any_nil, Bool.or_false]
    rw [show distLtB (⟨0, 0⟩ : Point) (⟨2, 0⟩ : Point) ((2 : ℚ) - 1/10) = false by
      simp only [distLtB, Point.distSq, decide_eq_false_iff_not]
      norm_num]
    rfl
  have hfind : (rotatorList 0 true).findSome?
      (fun dir =>
        if (⟨⟨0, 0⟩, ⟨1000, 0⟩, 300, 10000, 10000⟩ : MovementDetails).isInsideArea
              (Point.copyDir exGeom (⟨0, 0⟩ : Point) dir 2)
            && !(collidesChasing exSceneC2.bodies exSceneC2.behaviors
                exSceneC2.rewards (Point.copyDir exGeom (⟨0, 0⟩ : Point) dir 2) 2)
        then some (Point.copyDir exGeom (⟨0, 0⟩ : Point) dir 2)
        else Option.none) = some ⟨2, 0⟩ := by
    rw [rotatorList_eq_cons, List.findSome?_cons]
    rw [hhead]
    rw [show ((⟨⟨0, 0⟩, ⟨1000, 0⟩, 300, 10000, 10000⟩ : MovementDetails).isInsideArea
          (⟨2, 0⟩ : Point)
        && !(collidesChasing exSceneC2.bodies exSceneC2.behaviors
            exSceneC2.rewards (⟨2, 0⟩ : Point) 2)) = true by
      rw [hcol]
      decide]
    rfl
  rw [show exRng.rotFlip 0 0 = true from rfl, hfind]
  simp only [show distLtB (⟨1000, 0⟩ : Point) (⟨2, 0⟩ : Point) 2 = false by
    simp only [distLtB, Point.distSq, decide_eq_false_iff_not]
    norm_num]
  rfl

theorem evalChasingRun2 :
    executeMovementChasing exGeom
        (exSceneC2.bodies.set 0 ((exSceneC2.bodies.getD 0 default).roll ⟨2, 0⟩ ⟨1000, 0⟩))
        exSceneC2.behaviors exSceneC2.rewards
        (getMovementDetails exEnv
          { exSceneC2 with bodies :=
            (exSceneC2.bodies.set 0
              ((exSceneC2.bodies.getD 0 default).roll ⟨2, 0⟩ ⟨1000, 0⟩)) }
          0)
        (exRng.randDest 0 1) (exRng.rotFlip 0 1) (exEnv.params.bodySize * 2)
      = MovementResult.targetMiss ⟨4, 0⟩ ⟨1000, 0⟩ := by
  have hd : getMovementDetails exEnv
      { exSceneC2 with bodies :=
        (exSceneC2.bodies.set 0
          ((exSceneC2.bodies.getD 0 default).roll ⟨2, 0⟩ ⟨1000, 0⟩)) } 0
      = ⟨⟨2, 0⟩, ⟨1000, 0⟩, 300, 10000, 10000⟩ := rfl
  have hstep : exEnv.params.bodySize * 2 = (2 : ℚ) := by
    show (1 : ℚ) * 2 = 2
    norm_num
  rw [hd, hstep, executeMovementChasing]
  have hsel : selectTargetChasing exGeom ⟨⟨2, 0⟩, ⟨1000, 0⟩, 300, 10000, 10000⟩
      (exSceneC2.bodies.set 0 ((exSceneC2.bodies.getD 0 default).roll ⟨2, 0⟩ ⟨1000, 0⟩))
      exSceneC2.behaviors (exRng.randDest 0 1)
      = (Option.none, ⟨1000, 0⟩) := by
    rw [selectTargetChasing]
    rw [show chasingValidTargets exGeom ⟨⟨2, 0⟩, ⟨1000, 0⟩, 300, 10000, 10000⟩
        (exSceneC2.bodies.set 0
          ((exSceneC2.bodies.getD 0 default).roll ⟨2, 0⟩ ⟨1000, 0⟩))
        exSceneC2.behaviors = [] from rfl]
    rw [show minByDist [] = Option.none from rfl]
    rw [MovementDetails.chooseDestination]
    rw [show distGtB (⟨2, 0⟩ : Point) (⟨1000, 0⟩ : Point) 300 = true by
      simp only [distGtB, Point.distSq, decide_eq_true_eq]
      norm_num]
    rw [if_pos rfl]
  rw [executeMovementWith, hsel]
  dsimp only []
  rw [show exGeom.directionTo (⟨2, 0⟩ : Point) (⟨1000, 0⟩ : Point) = 0 by decide]
  have hhead : Point.copyDir exGeom (⟨2, 0⟩ : Point) ((0 : ℤ) + rotateVal 0 true) 2
      = (⟨4, 0⟩ : Point) := by
    rw [show ((0 : ℤ) + rotateVal 0 true) = 0 by decide]
    rw [Point.copyDir, show exGeom.dirPoint 0 = (⟨1, 0⟩ : Point) by decide]
    simp only [Point.add, Point.scale, Point.mk.injEq]
    norm_num
  have hcol : collidesChasing
      (exSceneC2.bodies.set 0 ((exSceneC2.bodies.getD 0 default).roll ⟨2, 0⟩ ⟨1000, 0⟩))
      exSceneC2.behaviors exSceneC2.rewards (⟨4, 0⟩ : Point) 2 = false := by
    rw [collidesChasing]
    rw [show (exSceneC2.bodies.set 0
        ((exSceneC2.bodies.getD 0 default).roll ⟨2, 0⟩ ⟨1000, 0⟩)).enum
        = [(0, (exSceneC2.bodies.getD 0 default).roll ⟨2, 0⟩ ⟨1000, 0⟩)] from rfl]
    simp only [List.any_cons, List.any_nil, Bool.or_false]
    rw [show ((exSceneC2.behaviors.getD 0 default).isAlive) = false from rfl]
    rw [if_neg (by simp)]
    rw [show ((exSceneC2.bodies.getD 0 default).roll ⟨2, 0⟩ ⟨1000, 0⟩).toList.take
        ((exSceneC2.bodies.getD 0 default).roll ⟨2, 0⟩ ⟨1000, 0⟩).size
        = [(⟨2, 0⟩ : Point)] from rfl]
    simp only [List.any_cons, List.any_nil, Bool.or_false]
    rw [show distLtB (⟨2, 0⟩ : Point) (⟨4, 0⟩ : Point) ((2 : ℚ) - 1/10) = false by
      simp only [distLtB, Point.distSq, decide_eq_false_iff_not]
      norm_num]
    rfl
  have hfind : (rotatorList 0 true).findSome?
      (fun dir =>
        if (⟨⟨2, 0⟩, ⟨1000, 0⟩, 300, 10000, 10000⟩ : MovementDetails).isInsideArea
              (Point.copyDir exGeom (⟨2, 0⟩ : Point) dir 2)
            && !(collidesChasing
                (exSceneC2.bodies.set 0
                  ((exSceneC2.bodies.getD 0 default).roll ⟨2, 0⟩ ⟨1000, 0⟩))
                exSceneC2.behaviors exSceneC2.rewards
                (Point.copyDir exGeom (⟨2, 0⟩ : Point) dir 2) 2)
        then some (Point.copyDir exGeom (⟨2, 0⟩ : Point) dir 2)
        else Option.none) = some ⟨4, 0⟩ := by
    rw [rotatorList_eq_cons, List.findSome?_cons]
    rw [hhead]
    rw [show ((⟨⟨2, 0⟩, ⟨1000, 0⟩, 300, 10000, 10000⟩ : MovementDetails).isInsideArea
          (⟨4, 0⟩ : Point)
        && !(collidesChasing
            (exSceneC2.bodies.set 0
              ((exSceneC2.bodies.getD 0 default).roll ⟨2, 0⟩ ⟨1000, 0⟩))
            exSceneC2.behaviors exSceneC2.rewards (⟨4, 0⟩ : Point) 2)) = true by
      rw [hcol]
      decide]
    rfl
  rw [show exRng.rotFlip 0 1 = true from rfl, hfind]
  simp only [show distLtB (⟨1000, 0⟩ : Point) (⟨4, 0⟩ : Point) 2 = false by
    simp only [distLtB, Point.distSq, decide_eq_false_iff_not]
    norm_num]
  rfl

/-- C2 amended: for a worm in the Chasing state, `update_worms` executes
the chasing movement a second time whenever the first attempt returns
`TargetMiss`; a tick in which both attempts return `TargetMiss` leaves
the worm Chasing and advances its head by exactly TWO steps (two rolls of
its body), not one. -/
theorem chasing_double_move (g : Geom) (env : SceneEnv) (rng : Rng)
    (s : SceneState) (wid : ℕ) (h1 d1 h2 d2 : Point)
    (hwb : wid < s.behaviors.length) (hwo : wid < s.bodies.length)
    (hbeh : s.behaviors.getD wid default = WormBehavior.Chasing)
    (hm1 : executeMovementChasing g s.bodies s.behaviors s.rewards
        (getMovementDetails env s wid) (rng.randDest wid 0) (rng.rotFlip wid 0)
        (env.params.bodySize * 2) = MovementResult.targetMiss h1 d1)
    (hm2 : executeMovementChasing g
        (s.bodies.set wid ((s.bodies.getD wid default).roll h1 d1))
        s.behaviors s.rewards
        (getMovementDetails env
          { s with bodies := s.bodies.set wid ((s.bodies.getD wid default).roll h1 d1) }
          wid)
        (rng.randDest wid 1) (rng.rotFlip wid 1)
        (env.params.bodySize * 2) = MovementResult.targetMiss h2 d2) :
    (updateWormSlot g env rng s wid).behaviors.getD wid default
        = WormBehavior.Chasing ∧
    (updateWormSlot g env rng s wid).bodies.getD wid default
        = ((s.bodies.getD wid default).roll h1 d1).roll h2 d2 :=
  chasingSlotTwoMisses g env rng s wid h1 d1 h2 d2 hwb hwo hbeh hm1 hm2

/-- C2 counterexample: in the concrete one-chaser scene, the first
movement attempt of the tick returns `TargetMiss`, yet the worm's body
ends the tick rolled TWICE (head at (4,0)), which differs from the
single-roll state (head at (2,0)) the claim asserts. -/
theorem chasing_not_single_roll :
    executeMovementChasing exGeom exSceneC2.bodies exSceneC2.behaviors
        exSceneC2.rewards (getMovementDetails exEnv exSceneC2 0)
        (exRng.randDest 0 0) (exRng.rotFlip 0 0) (exEnv.params.bodySize * 2)
      = MovementResult.targetMiss ⟨2, 0⟩ ⟨1000, 0⟩ ∧
    (updateWormSlot exGeom exEnv exRng exSceneC2 0).behaviors.getD 0 default
      = WormBehavior.Chasing ∧
    (updateWormSlot exGeom exEnv exRng exSceneC2 0).bodies.getD 0 default
      = ((exSceneC2.bodies.getD 0 default).roll ⟨2, 0⟩ ⟨1000, 0⟩).roll ⟨4, 0⟩ ⟨1000, 0⟩ ∧
    (((exSceneC2.bodies.getD 0 default).roll ⟨2, 0⟩ ⟨1000, 0⟩).roll
        ⟨4, 0⟩ ⟨1000, 0⟩).head = (⟨4, 0⟩ : Point) ∧
    ((exSceneC2.bodies.getD 0 default).roll ⟨2, 0⟩ ⟨1000, 0⟩).head
      = (⟨2, 0⟩ : Point) ∧
    ((exSceneC2.bodies.getD 0 default).roll ⟨2, 0⟩ ⟨1000, 0⟩).roll ⟨4, 0⟩ ⟨1000, 0⟩
      ≠ (exSceneC2.bodies.getD 0 default).roll ⟨2, 0⟩ ⟨1000, 0⟩ := by
  obtain ⟨hb, ho⟩ := chasingSlotTwoMisses exGeom exEnv exRng exSceneC2 0
    ⟨2, 0⟩ ⟨1000, 0⟩ ⟨4, 0⟩ ⟨1000, 0⟩ (by decide) (by decide) (by decide)
    evalChasingRun1 evalChasingRun2
  exact ⟨evalChasingRun1, hb, ho, by decide, by decide, by decide⟩

/-- Witness for the amended C2 theorem at the concrete one-chaser scene. -/
theorem chasing_double_move_witness :
    (updateWormSlot exGeom exEnv exRng exSceneC2 0).behaviors.getD 0 default
        = WormBehavior.Chasing ∧
    (updateWormSlot exGeom exEnv exRng exSceneC2 0).bodies.getD 0 default
        = ((exSceneC2.bodies.getD 0 default).roll ⟨2, 0⟩ ⟨1000, 0⟩).roll
          ⟨4, 0⟩ ⟨1000, 0⟩ :=
  chasing_double_move exGeom exEnv exRng exSceneC2 0 ⟨2, 0⟩ ⟨1000, 0⟩ ⟨4, 0⟩
    ⟨1000, 0⟩ (by decide) (by decide) (by decide) evalChasingRun1 evalChasingRun2

/-- A concrete chaser body (2 segments) for the merge witness. -/
def exChaser : WormBody := ⟨⟨0, 0⟩, List.replicate 32 ⟨0, 0⟩, 1, 2⟩

/-- A concrete target body (3 segments) for the merge witness. -/
def exTarget : WormBody := ⟨⟨0, 0⟩, List.replicate 32 ⟨0, 0⟩, 2, 3⟩

/-- Witness for the C6 theorem at a concrete two-worm scene. -/
theorem merge_conserves_segments_witness :
    ((mergeWorms [exChaser, exTarget] [WormBehavior.Chasing, WormBehavior.Alive 0]
          0 1).1.getD 0 default).size
        + ((mergeWorms [exChaser, exTarget]
            [WormBehavior.Chasing, WormBehavior.Alive 0] 0 1).1.getD 1 default).size + 1
      = (([exChaser, exTarget] : List WormBody).getD 0 default).size
        + (([exChaser, exTarget] : List WormBody).getD 1 default).size ∧
    ((mergeWorms [exChaser, exTarget] [WormBehavior.Chasing, WormBehavior.Alive 0]
          0 1).2.getD 1 default = WormBehavior.Removed
      ↔ ((mergeWorms [exChaser, exTarget]
          [WormBehavior.Chasing, WormBehavior.Alive 0] 0 1).1.getD 1 default).size = 0) :=
  merge_conserves_segments [exChaser, exTarget]
    [WormBehavior.Chasing, WormBehavior.Alive 0] 0 1 0 (by decide) (by decide)
    (by decide) (by decide) (by decide) (by decide) (by decide) (by decide) (by decide)

end Worms
